import Mathlib

/-!
Verification of the Medium-feed ingestion routine and the blog REST layer of the
portfolio backend (src/backend/services/mediumService.js, src/backend/models/BlogPost.js
and the blog controller).  The JavaScript code is shallowly embedded: timestamps are
milliseconds since the epoch as `Int` (an invalid JS `Date` is `none`), JS strings are
Lean `String` (lengths counted in characters), and the MongoDB collection is a
`List Post`.  Mongoose's automatic createdAt/updatedAt metadata is not modelled.
-/

set_option maxRecDepth 100000

namespace Portfolio

/-- Lifecycle status of a blog post (BlogPost.js `status` enum). -/
inductive PostStatus
  | published
  | draft
  | archived
deriving DecidableEq

/-- Sync status of a blog post (BlogPost.js `syncStatus` enum). -/
inductive SyncStatus
  | synced
  | pending
  | failed
deriving DecidableEq

/--
A stored blog-post document (BlogPost.js schema).  `id` models the MongoDB `_id`,
`publishedAt` is `none` when the stored value is an invalid date, and the optional
`metaTitle`/`metaDescription`/`excerpt`/`slug` fields use `""` for "unset" (matching
JS falsiness of the empty string).
-/
structure Post where
  id : Nat
  mediumId : String
  title : String
  slug : String
  description : String
  content : String
  excerpt : String
  author : String
  tags : List String
  categories : List String
  mediumUrl : String
  imageUrl : Option String
  publishedAt : Option Int
  readingTime : Nat
  status : PostStatus
  featured : Bool
  views : Nat
  likes : Nat
  metaTitle : String
  metaDescription : String
  lastSyncedAt : Int
  syncStatus : SyncStatus
deriving DecidableEq

/-- An entry of the `categories` array of a raw RSS item; `extractTags` keeps only
the entries that are strings (`typeof cat === 'string'`). -/
inductive CatVal
  | str (s : String)
  | nonStr
deriving DecidableEq

/--
A raw feed item as delivered by rss-parser with the service's customFields
(`content:encoded` mapped onto `content`, `dc:creator` kept alongside `creator`).
Date strings are modelled pre-parsed: `pubDate`/`isoDate` are `none` when the field
is absent (in which case `new Date(undefined)` is an invalid date, modelled `none`).
-/
structure FeedItem where
  guid : Option String
  link : Option String
  title : Option String
  content : Option String
  contentEncoded : Option String
  contentSnippet : Option String
  creator : Option String
  dcCreator : Option String
  pubDate : Option Int
  isoDate : Option Int
  categories : Option (List CatVal)
deriving DecidableEq

/-! ### JavaScript primitive helpers -/

/-- JS `a || b` on optional strings: the empty string is falsy. -/
def jsOrStr : Option String → Option String → Option String
  | some a, b => if a = "" then b else some a
  | none, b => b

/-- JS `a || d` producing a string default: `none` and `""` both fall through. -/
def jsStrD : Option String → String → String
  | some a, d => if a = "" then d else a
  | none, d => d

/-- JS `a || b` on (pre-parsed) date values. -/
def jsOrDate : Option Int → Option Int → Option Int
  | some a, _ => some a
  | none, b => b

/-- JS truthiness of an optional string query parameter. -/
def jsTruthyStr : Option String → Bool
  | some a => a ≠ ""
  | none => false

/-- JS `s.substring(0, n)`. -/
def jsSubstring (s : String) (n : Nat) : String :=
  String.mk (s.toList.take n)

/-- JS `s.trim()`: strip leading and trailing whitespace. -/
def jsTrim (s : String) : String :=
  String.mk (((s.toList.dropWhile Char.isWhitespace).reverse.dropWhile
    Char.isWhitespace).reverse)

/-- JS `s.toLowerCase()` (ASCII lowering). -/
def jsToLower (s : String) : String :=
  String.mk (s.toList.map Char.toLower)

/-- JS `Date` comparison `x > y`: false whenever either side is an invalid date
(`NaN` comparisons are false). -/
def dateGt : Option Int → Option Int → Bool
  | some a, some b => decide (b < a)
  | _, _ => false

/-! ### Markup stripping, word counting and image extraction (parseMediumArticle) -/

/-- The characters a tag body may contain: anything but `>` (the class `[^>]`). -/
def notGtChar (c : Char) : Bool :=
  c ≠ '>'

/--
`content.replace(/<[^>]*>/g, '')`: every `<`, the characters up to the next `>`
and that `>` are removed; a `<` with no later `>` cannot start a match and is kept.
The `fuel` argument only bounds the recursion (each step consumes at least one
character, so `l.length` fuel is always enough); it keeps the function structural.
-/
def stripTagsAux : Nat → List Char → List Char
  | _, [] => []
  | 0, l => l
  | fuel + 1, c :: r =>
    if c = '<' && r.contains '>' then
      stripTagsAux fuel ((r.dropWhile notGtChar).tail)
    else
      c :: stripTagsAux fuel r

/-- Plain text obtained by stripping markup from the content. -/
def stripHtmlTags (s : String) : String :=
  String.mk (stripTagsAux s.toList.length s.toList)

/-- Number of maximal whitespace runs in a character list (`inWs` records whether
the previous character was whitespace).  JS `\s` is approximated by
`Char.isWhitespace`. -/
def countWsRuns : List Char → Bool → Nat
  | [], _ => 0
  | c :: r, inWs =>
    if c.isWhitespace then
      (if inWs then 0 else 1) + countWsRuns r true
    else
      countWsRuns r false

/-- Length of JS `s.split(/\s+/)`: one more than the number of whitespace runs
(so the empty string yields 1, and leading/trailing whitespace each add 1). -/
def jsSplitWsLen (s : String) : Nat :=
  countWsRuns s.toList false + 1

/-- `Math.ceil(a / b)` on naturals. -/
def jsCeilDiv (a b : Nat) : Nat :=
  (a + b - 1) / b

/-- The capture group `([^">]+)` followed by a closing `"`: the maximal run of
characters other than `"` and `>`, which must be nonempty and followed by `"`. -/
def tryImgGroup (l : List Char) : Option String :=
  let g := l.takeWhile (fun c => c ≠ '"' && c ≠ '>')
  if g.isEmpty then none
  else
    match l.drop g.length with
    | '"' :: _ => some (String.mk g)
    | _ => none

/-- Backtracking of the greedy `[^>]+` in `/<img[^>]+src="([^">]+)"/`: try the
largest span first (`k+1` characters), looking for a literal `src="` after it. -/
def tryImgSpan : Nat → List Char → Option String
  | 0, _ => none
  | k + 1, body =>
    let after := body.drop (k + 1)
    if ['s', 'r', 'c', '=', '"'].isPrefixOf after then
      match tryImgGroup (after.drop 5) with
      | some g => some g
      | none => tryImgSpan k body
    else tryImgSpan k body

/-- Scan for the leftmost successful match of `/<img[^>]+src="([^">]+)"/`. -/
def findImgSrc : List Char → Option String
  | [] => none
  | c :: rest =>
    if ['<', 'i', 'm', 'g'].isPrefixOf (c :: rest) then
      let body := (c :: rest).drop 4
      match tryImgSpan (body.takeWhile (fun d => d ≠ '>')).length body with
      | some g => some g
      | none => findImgSrc rest
    else findImgSrc rest

/-- `content.match(/<img[^>]+src="([^">]+)"/)`: the first embedded image source. -/
def extractImageUrl (content : String) : Option String :=
  findImgSrc content.toList

/-! ### External identifier derivation (generateMediumId) -/

/-- A character of the class `[a-f0-9]`. -/
def isHexLower (c : Char) : Bool :=
  c.isDigit || ('a' ≤ c && c ≤ 'f')

/-- UTF-8 encoding of a Unicode scalar value (what `Buffer.from(guid)` uses). -/
def utf8EncodeNat (n : Nat) : List Nat :=
  if n < 0x80 then [n]
  else if n < 0x800 then [0xC0 + n / 64, 0x80 + n % 64]
  else if n < 0x10000 then [0xE0 + n / 4096, 0x80 + (n / 64) % 64, 0x80 + n % 64]
  else [0xF0 + n / 0x40000, 0x80 + (n / 4096) % 64, 0x80 + (n / 64) % 64, 0x80 + n % 64]

/-- The base64 alphabet. -/
def base64Table : List Char :=
  "ABCDEFGHIJKLMNOPQRSTUVWXYZabcdefghijklmnopqrstuvwxyz0123456789+/".toList

/-- The base64 digit for a 6-bit value. -/
def b64c (n : Nat) : Char :=
  base64Table.getD n 'A'

/-- Standard base64 of a byte list, with `=` padding. -/
def b64Encode : List Nat → List Char
  | [] => []
  | [a] => [b64c (a / 4), b64c (a % 4 * 16), '=', '=']
  | [a, b] => [b64c (a / 4), b64c (a % 4 * 16 + b / 16), b64c (b % 16 * 4), '=']
  | a :: b :: c :: r =>
    b64c (a / 4) :: b64c (a % 4 * 16 + b / 16) :: b64c (b % 16 * 4 + c / 64) ::
      b64c (c % 64) :: b64Encode r

/-- `Buffer.from(guid).toString('base64').replace(/[^a-zA-Z0-9]/g, '').substring(0, 12)`. -/
def base64Id (g : String) : String :=
  String.mk (((b64Encode ((g.toList.map Char.toNat).flatMap utf8EncodeNat)).filter
    Char.isAlphanum).take 12)

/--
`generateMediumId(guid)`: `null` for a falsy guid; otherwise the trailing
`[a-f0-9]+` path segment after a `/` if the guid ends in one (the match of
`/\/([a-f0-9]+)$/`), else the base64 fallback token.
-/
def generateMediumId (guid : Option String) : Option String :=
  match guid with
  | none => none
  | some g =>
    if g = "" then none
    else
      let cs := g.toList
      let run := (cs.reverse.takeWhile isHexLower).reverse
      let rem := cs.take (cs.length - run.length)
      if run ≠ [] && rem.getLast? = some '/' then some (String.mk run)
      else some (base64Id g)

/-! ### Tag and category extraction -/

/-- The string payload of a `categories` entry, if it is a string. -/
def catString : CatVal → Option String
  | .str s => some s
  | .nonStr => none

/-- `extractTags`: keep string entries, lowercase and trim them, keep at most 10. -/
def extractTags (categories : List CatVal) : List String :=
  ((categories.filterMap catString).map (fun s => jsTrim (jsToLower s))).take 10

/-- `extractCategories`: the tags, capped at 5. -/
def extractCategories (categories : List CatVal) : List String :=
  (extractTags categories).take 5

/-! ### parseMediumArticle -/

/-- The normalized record produced for one feed entry (the object literal returned
by `parseMediumArticle`). -/
structure Article where
  mediumId : Option String
  title : String
  description : String
  content : String
  excerpt : String
  author : String
  mediumUrl : Option String
  imageUrl : Option String
  publishedAt : Option Int
  readingTime : Nat
  tags : List String
  categories : List String
  lastSyncedAt : Int
  syncStatus : SyncStatus
deriving DecidableEq

/--
`parseMediumArticle(item)` at wall-clock time `now` (the service's `new Date()`
calls during one sync are modelled as the single instant `now`).
-/
def parseMediumArticle (now : Int) (item : FeedItem) : Article :=
  let content := jsStrD (jsOrStr item.content item.contentEncoded) ""
  let plainTextContent := stripHtmlTags content
  let wordCount := jsSplitWsLen plainTextContent
  let readingTime := jsCeilDiv wordCount 200
  let imageUrl := extractImageUrl content
  let mediumId := generateMediumId (jsOrStr item.guid item.link)
  { mediumId := mediumId
    title := jsStrD (item.title.map jsTrim) "Untitled"
    description := jsStrD (item.contentSnippet.map jsTrim)
      (jsSubstring plainTextContent 500)
    content := content
    excerpt := jsSubstring plainTextContent 300
    author := jsStrD (jsOrStr item.creator item.dcCreator) "Mukesh Rawat"
    mediumUrl := item.link
    imageUrl := imageUrl
    publishedAt := jsOrDate item.pubDate item.isoDate
    readingTime := readingTime
    tags := extractTags (item.categories.getD [])
    categories := extractCategories (item.categories.getD [])
    lastSyncedAt := now
    syncStatus := .synced }

/-- The external identifier an entry derives, independent of the store
(`generateMediumId(item.guid || item.link)`). -/
def derivedMediumId (item : FeedItem) : Option String :=
  generateMediumId (jsOrStr item.guid item.link)

/-- The derived identifier normalized for the `!articleData.mediumId` guard:
`none` when it is `null` or the empty string (both falsy). -/
def derivedMediumIdTruthy (item : FeedItem) : Option String :=
  match derivedMediumId item with
  | some s => if s = "" then none else some s
  | none => none

/-! ### BlogPost model (BlogPost.js): slug generation, pre-save hook, validation -/

/-- A lowercase letter or digit (the class `[a-z0-9]` after `toLowerCase()`). -/
def isSlugChar (c : Char) : Bool :=
  ('a' ≤ c && c ≤ 'z') || c.isDigit

/-- `replace(/[^a-z0-9]+/g, '-')` on an already lowercased character list:
each maximal run of non-slug characters becomes a single `-`.  The `fuel`
argument only bounds the recursion (each step consumes at least one character, so
`l.length` fuel is always enough); it keeps the function structural. -/
def collapseNonSlug : Nat → List Char → List Char
  | _, [] => []
  | 0, l => l
  | fuel + 1, c :: r =>
    if isSlugChar c then c :: collapseNonSlug fuel r
    else '-' :: collapseNonSlug fuel (r.dropWhile (fun d => !isSlugChar d))

/-- `replace(/(^-|-$)/g, '')`: remove one leading and one trailing hyphen. -/
def stripEdgeDashes (l : List Char) : List Char :=
  let l1 := match l with
    | '-' :: r => r
    | other => other
  match l1.reverse with
  | '-' :: r => r.reverse
  | _ => l1

/-- The slug derived from a title by the pre-save hook. -/
def slugify (title : String) : String :=
  String.mk (stripEdgeDashes
    (collapseNonSlug (jsToLower title).toList.length (jsToLower title).toList))

/-- First step of the `pre('save')` hook: derive the slug from the title when the
title is modified and no slug is set. -/
def postFillSlug (titleModified : Bool) (p : Post) : Post :=
  if titleModified && p.slug = "" then { p with slug := slugify p.title } else p

/-- Default `metaTitle` to the first 60 characters of the title when unset. -/
def postFillMetaTitle (p : Post) : Post :=
  if p.metaTitle = "" then { p with metaTitle := jsSubstring p.title 60 } else p

/-- Default `metaDescription` to the first 160 characters of the description. -/
def postFillMetaDescription (p : Post) : Post :=
  if p.metaDescription = "" then { p with metaDescription := jsSubstring p.description 160 }
  else p

/-- Default `excerpt` to the first 300 characters of the description. -/
def postFillExcerpt (p : Post) : Post :=
  if p.excerpt = "" then { p with excerpt := jsSubstring p.description 300 } else p

/--
The `pre('save')` hook: derive the slug from the title (only when the title is
modified, which holds on first save), and default `metaTitle`, `metaDescription`
and `excerpt` when unset.
-/
def applyPreSave (titleModified : Bool) (p : Post) : Post :=
  postFillExcerpt (postFillMetaDescription (postFillMetaTitle (postFillSlug titleModified p)))

/-- The `^https?:\/\/.+` validator (`.` does not match a line terminator). -/
def matchesHttpUrl (s : String) : Bool :=
  (match s.toList with
    | 'h' :: 't' :: 't' :: 'p' :: ':' :: '/' :: '/' :: c :: _ => c ≠ '\n' && c ≠ '\r'
    | 'h' :: 't' :: 't' :: 'p' :: 's' :: ':' :: '/' :: '/' :: c :: _ => c ≠ '\n' && c ≠ '\r'
    | _ => false)

/--
Mongoose validation of a blog-post document on save: required string paths must be
nonempty, `maxlength` bounds hold, and the URL validators pass.  (A Date path
holding an invalid date is not rejected here; see the module comment.)
-/
def validateBlogPost (p : Post) : Bool :=
  p.mediumId ≠ "" &&
  p.title ≠ "" && p.title.length ≤ 200 &&
  p.slug ≠ "" &&
  p.description ≠ "" && p.description.length ≤ 500 &&
  p.content ≠ "" &&
  p.excerpt.length ≤ 300 &&
  p.metaTitle.length ≤ 60 &&
  p.metaDescription.length ≤ 160 &&
  matchesHttpUrl p.mediumUrl &&
  (match p.imageUrl with
    | none => true
    | some v => v = "" || matchesHttpUrl v)

/-! ### The document store -/

/-- The new document built from a parsed article by `BlogPost.create(articleData)`,
before the pre-save hook: schema defaults fill `status`, `featured`, `views`,
`likes`, `slug`, `metaTitle` and `metaDescription`. -/
def docOfArticle (freshId : Nat) (a : Article) : Post :=
  { id := freshId
    mediumId := a.mediumId.getD ""
    title := a.title
    slug := ""
    description := a.description
    content := a.content
    excerpt := a.excerpt
    author := a.author
    tags := a.tags
    categories := a.categories
    mediumUrl := a.mediumUrl.getD ""
    imageUrl := a.imageUrl
    publishedAt := a.publishedAt
    readingTime := a.readingTime
    status := .published
    featured := false
    views := 0
    likes := 0
    metaTitle := ""
    metaDescription := ""
    lastSyncedAt := a.lastSyncedAt
    syncStatus := a.syncStatus }

/-- A fresh `_id` for an insert: one more than the largest id in the store. -/
def freshId (s : List Post) : Nat :=
  (s.map Post.id).foldr max 0 + 1

/-- `findOne({ mediumId })`: the first document with the given external id. -/
def findByMediumId (s : List Post) (mid : String) : Option Post :=
  s.find? (fun p => p.mediumId == mid)

/-- `findByIdAndUpdate`: apply `f` to the document with the given `_id`. -/
def updateById (s : List Post) (i : Nat) (f : Post → Post) : List Post :=
  s.map (fun p => if p.id = i then f p else p)

/-- The document as it stands when `BlogPost.create` saves it: schema defaults,
then the pre-save hook (a new document has a modified title). -/
def createdDoc (i : Nat) (a : Article) : Post :=
  applyPreSave true (docOfArticle i a)

/--
`BlogPost.create(articleData)`: run the pre-save hook, validate, enforce the
unique indexes on `mediumId` and `slug` (duplicate-key error), then insert.
-/
def blogPostCreate (s : List Post) (i : Nat) (a : Article) : Except String (List Post) :=
  let doc := createdDoc i a
  if !validateBlogPost doc then .error "ValidationError"
  else if s.any (fun p => p.mediumId == doc.mediumId || p.slug == doc.slug) then
    .error "E11000 duplicate key error"
  else .ok (s ++ [doc])

/-- `findOneAndUpdate({ mediumId }, { syncStatus: 'failed', lastSyncedAt: now },
{ upsert: false })`: mark the first matching document failed, if any. -/
def markSyncFailed (s : List Post) (mid : String) (now : Int) : List Post :=
  match s with
  | [] => []
  | p :: r =>
    if p.mediumId == mid then { p with syncStatus := .failed, lastSyncedAt := now } :: r
    else p :: markSyncFailed r mid now

/-! ### syncArticles (mediumService.js) -/

/-- The update condition of `syncArticles`: the incoming publish date is strictly
newer, or the stored document is marked failed, or the last sync is more than 24
hours old. -/
def shouldUpdate (now : Int) (a : Article) (ex : Post) : Bool :=
  dateGt a.publishedAt ex.publishedAt ||
  ex.syncStatus == SyncStatus.failed ||
  decide (24 * 60 * 60 * 1000 < now - ex.lastSyncedAt)

/--
The update document `{...articleData, views, likes, featured}` applied by
`findByIdAndUpdate` (no validators run on update).  An `undefined` value in the
update document (a missing `item.link`) leaves the stored field unchanged;
`imageUrl: null` is set explicitly.  The locally owned `views`, `likes` and
`featured` are taken from the previously fetched `existingArticle`.
-/
def applyArticleUpdate (a : Article) (ex : Post) (p : Post) : Post :=
  { p with
    mediumId := a.mediumId.getD p.mediumId
    title := a.title
    description := a.description
    content := a.content
    excerpt := a.excerpt
    author := a.author
    mediumUrl := match a.mediumUrl with
      | some u => u
      | none => p.mediumUrl
    imageUrl := a.imageUrl
    publishedAt := a.publishedAt
    readingTime := a.readingTime
    tags := a.tags
    categories := a.categories
    lastSyncedAt := a.lastSyncedAt
    syncStatus := a.syncStatus
    views := ex.views
    likes := ex.likes
    featured := ex.featured }

/--
Processing of one feed entry inside the `for` loop of `syncArticles`: returns the
new store together with the increments of `syncedCount` and `errorCount`.
A per-entry failure (here: a failing `BlogPost.create`) is caught, counted, and
best-effort marks the record failed without aborting the batch.
-/
def processEntry (now : Int) (s : List Post) (item : FeedItem) : List Post × Nat × Nat :=
  let a := parseMediumArticle now item
  match a.mediumId with
  | none => (s, 0, 0)
  | some mid =>
    if mid = "" then (s, 0, 0)
    else
      match findByMediumId s mid with
      | some ex =>
        if shouldUpdate now a ex then
          (updateById s ex.id (applyArticleUpdate a ex), 1, 0)
        else (s, 0, 0)
      | none =>
        match blogPostCreate s (freshId s) a with
        | .ok s2 => (s2, 1, 0)
        | .error _ => (markSyncFailed s mid now, 0, 1)

/-- Store evolution of one entry. -/
def stepStore (now : Int) (s : List Post) (item : FeedItem) : List Post :=
  (processEntry now s item).1

/-- Store evolution of a whole batch, in feed order. -/
def postsAfter (now : Int) (s : List Post) (items : List FeedItem) : List Post :=
  items.foldl (stepStore now) s

/-- One step of the `syncedCount`/`errorCount`/store accumulation. -/
def syncStep (now : Int) (acc : List Post × Nat × Nat) (item : FeedItem) :
    List Post × Nat × Nat :=
  let r := processEntry now acc.1 item
  (r.1, acc.2.1 + r.2.1, acc.2.2 + r.2.2)

/-- The structured result object `syncArticles` resolves to; absent JSON keys are
`none`. -/
structure SyncResult where
  success : Bool
  message : Option String := none
  error : Option String := none
  syncedCount : Option Nat := none
  errorCount : Option Nat := none
  totalProcessed : Option Nat := none
deriving DecidableEq

/-- The in-memory service state: the persisted collection and the busy flag. -/
structure SyncState where
  posts : List Post
  syncInProgress : Bool
deriving DecidableEq

/--
`syncArticles()` at instant `now`.  The feed fetch is an input: `.error e` models
a rejected `fetchMediumArticles()` (invalid feed or network failure, message
already wrapped), `.ok items` a parsed feed.  A second call while one is running
returns the busy result without touching the flag; otherwise the flag is released
in the `finally` block.
-/
def syncArticles (st : SyncState) (fetch : Except String (List FeedItem)) (now : Int) :
    SyncResult × SyncState :=
  if st.syncInProgress then
    ({ success := false, message := some "Sync already in progress" }, st)
  else
    match fetch with
    | .error e =>
      ({ success := false, error := some e, syncedCount := some 0, errorCount := some 0 },
        { posts := st.posts, syncInProgress := false })
    | .ok items =>
      let r := items.foldl (syncStep now) (st.posts, 0, 0)
      ({ success := true, syncedCount := some r.2.1, errorCount := some r.2.2,
          totalProcessed := some items.length },
        { posts := r.1, syncInProgress := false })

/-! ### Blog controller (blogController.js): public list, get-by-slug, admin update -/

/-- Insert into a list sorted by descending key (stable: an equal key goes after
earlier elements). -/
def insertDescBy (key : Post → Int) (p : Post) : List Post → List Post
  | [] => [p]
  | q :: r => if key q < key p then p :: q :: r else q :: insertDescBy key p r

/-- Sort by descending key; models the default `-publishedAt` Mongo sort. -/
def sortDescBy (key : Post → Int) (l : List Post) : List Post :=
  l.foldr (insertDescBy key) []

/-- The sort key for `publishedAt` (an invalid stored date sorts like the epoch). -/
def publishedKey (p : Post) : Int :=
  p.publishedAt.getD 0

/-- `.select('-content')`: the list view omits the full content. -/
def stripContent (p : Post) : Post :=
  { p with content := "" }

/-- Case-insensitive containment of `pat` in `hay`: the model of the
`$regex: search, $options: 'i'` condition (exact for metacharacter-free search
strings). -/
def containsCI (hay pat : String) : Bool :=
  let h := (jsToLower hay).toList
  let q := (jsToLower pat).toList
  (List.range (h.length + 1)).any (fun i => q.isPrefixOf (h.drop i))

/-- JS `s.split(',')`: split at every comma, keeping empty segments. -/
def splitComma : List Char → List Char → List String
  | [], acc => [String.mk acc.reverse]
  | c :: r, acc =>
    if c = ',' then String.mk acc.reverse :: splitComma r []
    else splitComma r (c :: acc)

/-- `tags.split(',').map(tag => tag.trim())`. -/
def splitTrim (s : String) : List String :=
  (splitComma s.toList []).map jsTrim

/-- The query-string parameters of `GET /api/blog` (already URL-decoded;
`page`/`limit` are modelled post-`parseInt`, with their defaults applied). -/
structure ListQuery where
  page : Nat := 1
  limit : Nat := 10
  featured : Option String := none
  tags : Option String := none
  categories : Option String := none
  search : Option String := none
deriving DecidableEq

/-- The Mongo query built by `getBlogPosts`: always `{ status: 'published' }`,
plus the optional featured / tags / categories / search conditions. -/
def matchesListQuery (q : ListQuery) (p : Post) : Bool :=
  p.status == PostStatus.published &&
  (if q.featured == some "true" then p.featured else true) &&
  (if jsTruthyStr q.tags then
      (splitTrim (q.tags.getD "")).any (fun t => p.tags.contains t)
    else true) &&
  (if jsTruthyStr q.categories then
      (splitTrim (q.categories.getD "")).any (fun t => p.categories.contains t)
    else true) &&
  (if jsTruthyStr q.search then
      let w := q.search.getD ""
      containsCI p.title w || containsCI p.description w || containsCI p.content w ||
        p.tags.any (fun t => containsCI t w)
    else true)

/-- `BlogPost.getFeatured(limit)`: published featured posts, newest first. -/
def getFeatured (s : List Post) (limit : Nat) : List Post :=
  (sortDescBy publishedKey
    (s.filter (fun p => p.status == PostStatus.published && p.featured))).take limit

/-- The JSON body of a successful `GET /api/blog` response. -/
structure BlogListResponse where
  results : Nat
  totalResults : Nat
  totalPages : Nat
  currentPage : Nat
  posts : List Post
  featuredPosts : List Post
deriving DecidableEq

/--
`getBlogPosts(req, res)`: filter on the built query, sort newest first, paginate
with skip/limit, drop the content field; on an unfiltered first page also attach
the top three featured posts.
-/
def getBlogPosts (q : ListQuery) (s : List Post) : BlogListResponse :=
  let filtered := s.filter (matchesListQuery q)
  let sorted := sortDescBy publishedKey filtered
  let posts := ((sorted.drop ((q.page - 1) * q.limit)).take q.limit).map stripContent
  let featuredPosts :=
    if !jsTruthyStr q.featured && !jsTruthyStr q.tags && !jsTruthyStr q.categories &&
        !jsTruthyStr q.search && q.page = 1 then
      getFeatured s 3
    else []
  { results := posts.length
    totalResults := filtered.length
    totalPages := jsCeilDiv filtered.length q.limit
    currentPage := q.page
    posts := posts
    featuredPosts := featuredPosts }

/-- `post.incrementViews()` bumps the counter and saves the document, which runs
the pre-save hook (title unmodified) and full-document validation. -/
def bumpViews (p : Post) : Post :=
  applyPreSave false { p with views := p.views + 1 }

/-- The response of `GET /api/blog/:slug`. -/
inductive GetPostResponse
  | ok (post : Post) (relatedPosts : List Post)
  | notFound
  | serverError
deriving DecidableEq

/--
`getBlogPost(req, res)`: look up `{ slug, status: 'published' }` (404 when
absent), increment the view counter (a failing save is caught as a 500), then
return the post with up to three related published posts sharing a tag or
category, newest first, excluding the post itself.
-/
def getBlogPost (slug : String) (s : List Post) : GetPostResponse × List Post :=
  match s.find? (fun p => p.slug == slug && p.status == PostStatus.published) with
  | none => (.notFound, s)
  | some p =>
    let d := bumpViews p
    if validateBlogPost d then
      let s2 := updateById s p.id (fun _ => d)
      let related :=
        ((sortDescBy publishedKey (s2.filter (fun q =>
            q.id ≠ p.id && q.status == PostStatus.published &&
            (q.tags.any (fun t => p.tags.contains t) ||
              q.categories.any (fun t => p.categories.contains t))))).take 3).map
          stripContent
      (.ok d related, s2)
    else (.serverError, s)

/-- The request body of `PUT /api/blog/:id` after express-validator: optional
`featured` and `status` values, plus arbitrary further keys which the controller's
destructuring never reads. -/
structure UpdateBody where
  featured : Option Bool := none
  status : Option PostStatus := none
  otherFields : List (String × String) := []
deriving DecidableEq

/-- The `updateData` document applied by the admin update: only `featured` and
`status`, and only when supplied. -/
def applyAdminUpdate (b : UpdateBody) (p : Post) : Post :=
  { p with
    featured := b.featured.getD p.featured
    status := b.status.getD p.status }

/-- The response of `PUT /api/blog/:id`. -/
inductive UpdateResponse
  | ok (post : Post)
  | notFound
deriving DecidableEq

/-- `updateBlogPost(req, res)`: `findByIdAndUpdate(id, updateData, {new: true,
runValidators: true})`; 404 when the id is absent. -/
def updateBlogPost (s : List Post) (i : Nat) (b : UpdateBody) : UpdateResponse × List Post :=
  match s.find? (fun p => p.id == i) with
  | none => (.notFound, s)
  | some p => (.ok (applyAdminUpdate b p), updateById s i (applyAdminUpdate b))

/-! ### Specification-side definitions -/

/-- Number of maximal non-whitespace runs in a character list (`inWord` records
whether the previous character was part of a word). -/
def countWordRuns : List Char → Bool → Nat
  | [], _ => 0
  | c :: r, inWord =>
    if c.isWhitespace then countWordRuns r false
    else (if inWord then 0 else 1) + countWordRuns r true

/-- Word count as the specification's text uses the term: the number of
whitespace-separated words of the plain text.  Stated from the spec's words, to be
compared with the code's `split(/\s+/).length`. -/
def specWordCount (s : String) : Nat :=
  countWordRuns s.toList false

/-- Whether a character list ends in a whitespace character. -/
def endsInWs (l : List Char) : Bool :=
  match l.getLast? with
  | some c => c.isWhitespace
  | none => false

/-- A feed entry is stable on a store when processing it changes nothing. -/
def stableEntry (now : Int) (s : List Post) (x : FeedItem) : Prop :=
  stepStore now s x = s

/-! ### Store well-formedness and feed-level predicates -/

/-- Well-formedness of the persisted collection: the `_id`s are distinct (MongoDB)
and the `mediumId`s are distinct (the unique index). -/
def storeWF (s : List Post) : Prop :=
  (s.map Post.id).Nodup ∧ (s.map Post.mediumId).Nodup

instance : DecidablePred storeWF := fun s =>
  inferInstanceAs (Decidable ((s.map Post.id).Nodup ∧ (s.map Post.mediumId).Nodup))

/-- Two feed entries derive distinct usable external identifiers (or at least one
derives none). -/
def disjointMid (x y : FeedItem) : Prop :=
  derivedMediumIdTruthy x = none ∨ derivedMediumIdTruthy y = none ∨
    derivedMediumIdTruthy x ≠ derivedMediumIdTruthy y

instance (x y : FeedItem) : Decidable (disjointMid x y) :=
  inferInstanceAs (Decidable (_ ∨ _ ∨ _))

/-! ### Concrete sample data for witnesses and counterexamples -/

/-- A stored draft post (not publicly visible). -/
def draftPost : Post :=
  { id := 1, mediumId := "aa11", title := "Hidden", slug := "x", description := "d",
    content := "c", excerpt := "e", author := "A", tags := ["t"], categories := ["c"],
    mediumUrl := "https://m/x", imageUrl := none, publishedAt := some 10,
    readingTime := 1, status := .draft, featured := false, views := 0, likes := 0,
    metaTitle := "m", metaDescription := "md", lastSyncedAt := 0, syncStatus := .synced }

/-- A stored published featured post. -/
def publishedPost : Post :=
  { id := 2, mediumId := "bb22", title := "Live", slug := "live", description := "desc",
    content := "body", excerpt := "e", author := "A", tags := ["dev"], categories := ["dev"],
    mediumUrl := "https://m/live", imageUrl := none, publishedAt := some 20,
    readingTime := 1, status := .published, featured := true, views := 7, likes := 3,
    metaTitle := "Live", metaDescription := "desc", lastSyncedAt := 0, syncStatus := .synced }

/-- A feed entry whose guid ends in the hex segment `aa11` and whose publish
timestamp is 2000. -/
def feedItemA : FeedItem :=
  { guid := some "https://medium.com/p/aa11", link := some "https://medium.com/p/aa11",
    title := some "Hello", content := some "<p>New body</p>", contentEncoded := none,
    contentSnippet := some "snippet", creator := some "Mukesh", dcCreator := none,
    pubDate := some 2000, isoDate := none, categories := some [.str "Dev"] }

/-- A feed entry with neither guid nor link. -/
def feedItemNoGuid : FeedItem :=
  { guid := none, link := none,
    title := some "Lost", content := some "<p>Body</p>", contentEncoded := none,
    contentSnippet := some "snip", creator := none, dcCreator := none,
    pubDate := some 1500, isoDate := none, categories := none }

/-- A feed entry deriving the fresh hex id `cc33`. -/
def feedItemB : FeedItem :=
  { guid := some "https://medium.com/p/cc33", link := some "https://medium.com/p/cc33",
    title := some "Fresh", content := some "<p>Fresh body</p>", contentEncoded := none,
    contentSnippet := some "fresh snippet", creator := some "Mukesh", dcCreator := none,
    pubDate := some 3000, isoDate := none, categories := some [.str "Dev"] }

/-- A stored post for id `aa11` that is newer than `feedItemA` and was last synced
at time 0. -/
def stalePost : Post :=
  { id := 1, mediumId := "aa11", title := "Old", slug := "old", description := "d",
    content := "c", excerpt := "e", author := "A", tags := ["t"], categories := ["c"],
    mediumUrl := "https://m/old", imageUrl := none, publishedAt := some 5000,
    readingTime := 1, status := .published, featured := true, views := 9, likes := 4,
    metaTitle := "m", metaDescription := "md", lastSyncedAt := 0, syncStatus := .synced }

/-- A 501-character snippet, exceeding the description budget. -/
def longSnippet : String :=
  String.mk (List.replicate 501 'a')

/-- A feed entry whose snippet is too long for the schema's description budget,
publish timestamp 2000, derived id `bb77`. -/
def feedItemXdup : FeedItem :=
  { guid := some "https://medium.com/p/bb77", link := some "https://medium.com/p/bb77",
    title := some "Xdup", content := some "<p>xbody</p>", contentEncoded := none,
    contentSnippet := some longSnippet, creator := none, dcCreator := none,
    pubDate := some 2000, isoDate := none, categories := none }

/-- A valid feed entry deriving the same id `bb77`, but with the older publish
timestamp 1000. -/
def feedItemYdup : FeedItem :=
  { guid := some "https://medium.com/p/bb77", link := some "https://medium.com/p/bb77",
    title := some "Ydup", content := some "<p>ybody</p>", contentEncoded := none,
    contentSnippet := some "ysnip", creator := none, dcCreator := none,
    pubDate := some 1000, isoDate := none, categories := none }

/-- A feed entry whose markup-stripped body is empty. -/
def feedItemEmptyBody : FeedItem :=
  { guid := some "https://medium.com/p/dd44", link := some "https://medium.com/p/dd44",
    title := some "Empty", content := some "<p></p>", contentEncoded := none,
    contentSnippet := some "s", creator := none, dcCreator := none,
    pubDate := some 1, isoDate := none, categories := none }

/-- A 400-word plain-text body (single spaces, no boundary whitespace). -/
def words400 : String :=
  String.mk (List.intercalate [' '] (List.replicate 400 ['w']))

/-- A feed entry whose body is exactly 400 words of plain text. -/
def feedItem400 : FeedItem :=
  { guid := some "https://medium.com/p/ee55", link := some "https://medium.com/p/ee55",
    title := some "Long read", content := some words400, contentEncoded := none,
    contentSnippet := some "s", creator := none, dcCreator := none,
    pubDate := some 1, isoDate := none, categories := none }

/-- A feed entry without a contentSnippet (the description falls back to the
truncated plain text). -/
def feedItemNoSnippet : FeedItem :=
  { guid := some "https://medium.com/p/9f9f", link := some "https://medium.com/p/9f9f",
    title := some "NS", content := some "<p>text body</p>", contentEncoded := none,
    contentSnippet := none, creator := none, dcCreator := none,
    pubDate := some 1, isoDate := none, categories := none }

/-! ### Helper lemmas -/

theorem applyPreSave_fields (t : Bool) (p : Post) :
    (applyPreSave t p).id = p.id ∧ (applyPreSave t p).mediumId = p.mediumId ∧
    (applyPreSave t p).title = p.title ∧ (applyPreSave t p).description = p.description ∧
    (applyPreSave t p).content = p.content ∧ (applyPreSave t p).author = p.author ∧
    (applyPreSave t p).tags = p.tags ∧ (applyPreSave t p).categories = p.categories ∧
    (applyPreSave t p).mediumUrl = p.mediumUrl ∧ (applyPreSave t p).imageUrl = p.imageUrl ∧
    (applyPreSave t p).publishedAt = p.publishedAt ∧
    (applyPreSave t p).readingTime = p.readingTime ∧
    (applyPreSave t p).status = p.status ∧ (applyPreSave t p).featured = p.featured ∧
    (applyPreSave t p).views = p.views ∧ (applyPreSave t p).likes = p.likes ∧
    (applyPreSave t p).lastSyncedAt = p.lastSyncedAt ∧
    (applyPreSave t p).syncStatus = p.syncStatus := by
  unfold applyPreSave postFillExcerpt postFillMetaDescription postFillMetaTitle postFillSlug
  split_ifs <;> and_intros <;> rfl

theorem applyPreSave_slug_unmodified (p : Post) :
    (applyPreSave false p).slug = p.slug := by
  unfold applyPreSave postFillExcerpt postFillMetaDescription postFillMetaTitle postFillSlug
  simp only [Bool.false_and, Bool.false_eq_true, if_false]
  split_ifs <;> rfl

theorem insertDescBy_mem {key : Post → Int} {p x : Post} :
    ∀ {l : List Post}, x ∈ insertDescBy key p l → x = p ∨ x ∈ l := by
  intro l
  induction l with
  | nil =>
    intro h
    simp only [insertDescBy, List.mem_singleton] at h
    exact Or.inl h
  | cons q r ih =>
    intro h
    simp only [insertDescBy] at h
    split at h
    · simp only [List.mem_cons] at h ⊢
      tauto
    · simp only [List.mem_cons] at h ⊢
      rcases h with h | h
      · tauto
      · rcases ih h with h | h <;> tauto

theorem sortDescBy_mem {key : Post → Int} {x : Post} :
    ∀ {l : List Post}, x ∈ sortDescBy key l → x ∈ l := by
  intro l
  induction l with
  | nil => intro h; simp [sortDescBy] at h
  | cons q r ih =>
    intro h
    have h2 : x ∈ insertDescBy key q (sortDescBy key r) := h
    rcases insertDescBy_mem h2 with h | h
    · simp [h]
    · exact List.mem_cons_of_mem _ (ih h)

theorem matchesListQuery_published {q : ListQuery} {p : Post}
    (h : matchesListQuery q p = true) : p.status = PostStatus.published := by
  unfold matchesListQuery at h
  simp only [Bool.and_eq_true, beq_iff_eq] at h
  exact h.1.1.1.1

theorem stripContent_status (p : Post) : (stripContent p).status = p.status := rfl

/-! ### C7: anonymous read endpoints only expose published posts -/

/--
C7: the public blog list query returns only posts with status `published` (for
every combination of page, limit, featured, search, tag and category filters, in
both the `posts` and `featuredPosts` parts of the response), and fetching a single
blog post by slug responds 404 whenever no stored post has that slug with status
`published`.
-/
theorem publicReadsOnlyPublished (q : ListQuery) (slug : String) (s : List Post) :
    (∀ p ∈ (getBlogPosts q s).posts, p.status = PostStatus.published) ∧
    (∀ p ∈ (getBlogPosts q s).featuredPosts, p.status = PostStatus.published) ∧
    ((∀ p ∈ s, p.slug = slug → p.status ≠ PostStatus.published) →
      (getBlogPost slug s).1 = GetPostResponse.notFound) := by
  refine ⟨?_, ?_, ?_⟩
  · intro p hp
    simp only [getBlogPosts, List.mem_map] at hp
    obtain ⟨y, hy, hpy⟩ := hp
    have hy2 : y ∈ sortDescBy publishedKey (s.filter (matchesListQuery q)) :=
      List.drop_subset _ _ (List.take_subset _ _ hy)
    have hy3 := sortDescBy_mem hy2
    have hy4 := (List.mem_filter.mp hy3).2
    rw [← hpy, stripContent_status]
    exact matchesListQuery_published hy4
  · intro p hp
    simp only [getBlogPosts] at hp
    split at hp
    · have hp2 : p ∈ sortDescBy publishedKey
          (s.filter (fun r => r.status == PostStatus.published && r.featured)) :=
        List.take_subset _ _ hp
      have hp3 := sortDescBy_mem hp2
      have hp4 := (List.mem_filter.mp hp3).2
      simp only [Bool.and_eq_true, beq_iff_eq] at hp4
      exact hp4.1
    · simp at hp
  · intro hnone
    unfold getBlogPost
    cases hf : s.find? (fun p => p.slug == slug && p.status == PostStatus.published) with
    | none => rfl
    | some p =>
      exfalso
      have hmem := List.mem_of_find?_eq_some hf
      have hpred := List.find?_some hf
      simp only [Bool.and_eq_true, beq_iff_eq] at hpred
      exact hnone p hmem hpred.1 hpred.2

/-- Witness for C7 at a concrete store holding one draft post. -/
theorem publicReadsOnlyPublished_witness :
    (∀ p ∈ (getBlogPosts {} [draftPost]).posts, p.status = PostStatus.published) ∧
    (∀ p ∈ (getBlogPosts {} [draftPost]).featuredPosts, p.status = PostStatus.published) ∧
    (getBlogPost "x" [draftPost]).1 = GetPostResponse.notFound :=
  ⟨(publicReadsOnlyPublished {} "x" [draftPost]).1,
   (publicReadsOnlyPublished {} "x" [draftPost]).2.1,
   (publicReadsOnlyPublished {} "x" [draftPost]).2.2 (by decide)⟩

/-! ### C10: the admin update endpoint touches at most featured and status -/

/--
C10: `PUT /api/blog/:id` modifies at most the `featured` and `status` fields of
the targeted post; for every request body — including bodies supplying values for
other fields — every other stored field of that post, and every other post, is
unchanged.
-/
theorem adminUpdateFrame (s : List Post) (i : Nat) (b : UpdateBody) (p : Post)
    (hf : s.find? (fun r => r.id == i) = some p) :
    (updateBlogPost s i b).1 = UpdateResponse.ok (applyAdminUpdate b p) ∧
    (updateBlogPost s i b).2 = updateById s i (applyAdminUpdate b) ∧
    (∀ r ∈ s, r.id ≠ i → r ∈ (updateBlogPost s i b).2) ∧
    (∀ r : Post,
      (applyAdminUpdate b r).id = r.id ∧ (applyAdminUpdate b r).mediumId = r.mediumId ∧
      (applyAdminUpdate b r).title = r.title ∧ (applyAdminUpdate b r).slug = r.slug ∧
      (applyAdminUpdate b r).description = r.description ∧
      (applyAdminUpdate b r).content = r.content ∧
      (applyAdminUpdate b r).excerpt = r.excerpt ∧
      (applyAdminUpdate b r).author = r.author ∧
      (applyAdminUpdate b r).tags = r.tags ∧
      (applyAdminUpdate b r).categories = r.categories ∧
      (applyAdminUpdate b r).mediumUrl = r.mediumUrl ∧
      (applyAdminUpdate b r).imageUrl = r.imageUrl ∧
      (applyAdminUpdate b r).publishedAt = r.publishedAt ∧
      (applyAdminUpdate b r).readingTime = r.readingTime ∧
      (applyAdminUpdate b r).views = r.views ∧
      (applyAdminUpdate b r).likes = r.likes ∧
      (applyAdminUpdate b r).metaTitle = r.metaTitle ∧
      (applyAdminUpdate b r).metaDescription = r.metaDescription ∧
      (applyAdminUpdate b r).lastSyncedAt = r.lastSyncedAt ∧
      (applyAdminUpdate b r).syncStatus = r.syncStatus) := by
  refine ⟨?_, ?_, ?_, ?_⟩
  · simp [updateBlogPost, hf]
  · simp [updateBlogPost, hf]
  · intro r hr hri
    simp only [updateBlogPost, hf]
    have heq : (fun q => if q.id = i then applyAdminUpdate b q else q) r = r := if_neg hri
    have hm := List.mem_map_of_mem (fun q => if q.id = i then applyAdminUpdate b q else q) hr
    rw [heq] at hm
    exact hm
  · intro r
    unfold applyAdminUpdate
    and_intros <;> rfl

/-- Witness for C10: a body that also supplies title and views values. -/
theorem adminUpdateFrame_witness :
    (updateBlogPost [draftPost, publishedPost] 2
        { featured := some false, status := some .archived,
          otherFields := [("title", "HACK"), ("views", "999")] }).1 =
      UpdateResponse.ok (applyAdminUpdate
        { featured := some false, status := some .archived,
          otherFields := [("title", "HACK"), ("views", "999")] } publishedPost) ∧
    (applyAdminUpdate
        { featured := some false, status := some .archived,
          otherFields := [("title", "HACK"), ("views", "999")] } publishedPost).title =
      publishedPost.title ∧
    (applyAdminUpdate
        { featured := some false, status := some .archived,
          otherFields := [("title", "HACK"), ("views", "999")] } publishedPost).views =
      publishedPost.views ∧
    draftPost ∈ (updateBlogPost [draftPost, publishedPost] 2
        { featured := some false, status := some .archived,
          otherFields := [("title", "HACK"), ("views", "999")] }).2 := by
  have h := adminUpdateFrame [draftPost, publishedPost] 2
    { featured := some false, status := some .archived,
      otherFields := [("title", "HACK"), ("views", "999")] } publishedPost (by decide)
  exact ⟨h.1, (h.2.2.2 publishedPost).2.2.1,
    (h.2.2.2 publishedPost).2.2.2.2.2.2.2.2.2.2.2.2.2.2.1,
    h.2.2.1 draftPost (by decide) (by decide)⟩

/-! ### C8: viewing a post increments exactly its view counter by one -/

/--
C8: a successful fetch of a single published post by slug increments exactly that
post's `views` counter by exactly one (its `likes` are untouched), and every other
stored post — in particular its views and likes — is left unchanged.
-/
theorem viewIncrementExact (s : List Post) (slug : String) (p : Post)
    (hids : (s.map Post.id).Nodup)
    (hf : s.find? (fun r => r.slug == slug && r.status == PostStatus.published) = some p)
    (hv : validateBlogPost (bumpViews p) = true) :
    (∃ rel, (getBlogPost slug s).1 = GetPostResponse.ok (bumpViews p) rel) ∧
    (bumpViews p).views = p.views + 1 ∧
    (bumpViews p).likes = p.likes ∧
    p.slug = slug ∧ p.status = PostStatus.published ∧
    (getBlogPost slug s).2 = updateById s p.id (fun _ => bumpViews p) ∧
    (∀ r ∈ s, r ≠ p → r ∈ (getBlogPost slug s).2) ∧
    ((getBlogPost slug s).2).length = s.length := by
  have hpred := List.find?_some hf
  simp only [Bool.and_eq_true, beq_iff_eq] at hpred
  have hmem := List.mem_of_find?_eq_some hf
  obtain ⟨-, -, -, -, -, -, -, -, -, -, -, -, -, -, hviews, hlikes, -, -⟩ :=
    applyPreSave_fields false { p with views := p.views + 1 }
  refine ⟨?_, ?_, ?_, hpred.1, hpred.2, ?_, ?_, ?_⟩
  · unfold getBlogPost
    rw [hf]
    simp only [hv, if_true]
    exact ⟨_, rfl⟩
  · rw [bumpViews, hviews]
  · rw [bumpViews, hlikes]
  · simp [getBlogPost, hf, hv]
  · intro r hr hrp
    simp only [getBlogPost, hf, hv, if_true]
    have hri : r.id ≠ p.id := fun hid =>
      hrp (List.inj_on_of_nodup_map hids hr hmem hid)
    have heq : (fun q => if q.id = p.id then bumpViews p else q) r = r := if_neg hri
    have hm := List.mem_map_of_mem (fun q => if q.id = p.id then bumpViews p else q) hr
    rw [heq] at hm
    exact hm
  · simp [getBlogPost, hf, hv, updateById]

/-! ### Sync-machinery lemmas -/

theorem parse_mediumId_eq (now : Int) (x : FeedItem) :
    (parseMediumArticle now x).mediumId = derivedMediumId x := rfl

theorem derivedTruthy_some {x : FeedItem} {m : String}
    (h : derivedMediumIdTruthy x = some m) :
    derivedMediumId x = some m ∧ m ≠ "" := by
  unfold derivedMediumIdTruthy at h
  rcases hd : derivedMediumId x with _ | s
  · rw [hd] at h
    simp at h
  · rw [hd] at h
    dsimp only at h
    by_cases hs : s = ""
    · rw [if_pos hs] at h
      simp at h
    · rw [if_neg hs] at h
      injection h with h2
      subst h2
      exact ⟨rfl, hs⟩

theorem derivedTruthy_none {x : FeedItem} (h : derivedMediumIdTruthy x = none) :
    derivedMediumId x = none ∨ derivedMediumId x = some "" := by
  unfold derivedMediumIdTruthy at h
  rcases hd : derivedMediumId x with _ | s
  · exact Or.inl rfl
  · rw [hd] at h
    dsimp only at h
    by_cases hs : s = ""
    · exact Or.inr (by rw [hs])
    · rw [if_neg hs] at h
      simp at h

theorem processEntry_skip {now : Int} {s : List Post} {x : FeedItem}
    (h : derivedMediumIdTruthy x = none) :
    processEntry now s x = (s, 0, 0) := by
  unfold processEntry
  dsimp only
  rcases derivedTruthy_none h with h2 | h2
  · rw [parse_mediumId_eq, h2]
  · rw [parse_mediumId_eq, h2]
    simp

theorem processEntry_found {now : Int} {s : List Post} {x : FeedItem} {m : String}
    {ex : Post} (hm : derivedMediumIdTruthy x = some m)
    (hf : findByMediumId s m = some ex) :
    processEntry now s x =
      (if shouldUpdate now (parseMediumArticle now x) ex then
        (updateById s ex.id (applyArticleUpdate (parseMediumArticle now x) ex), 1, 0)
      else (s, 0, 0)) := by
  obtain ⟨hd, hne⟩ := derivedTruthy_some hm
  unfold processEntry
  dsimp only
  rw [parse_mediumId_eq, hd]
  dsimp only
  rw [if_neg hne, hf]

theorem processEntry_notFound {now : Int} {s : List Post} {x : FeedItem} {m : String}
    (hm : derivedMediumIdTruthy x = some m) (hf : findByMediumId s m = none) :
    processEntry now s x =
      (match blogPostCreate s (freshId s) (parseMediumArticle now x) with
        | .ok s2 => (s2, 1, 0)
        | .error _ => (markSyncFailed s m now, 0, 1)) := by
  obtain ⟨hd, hne⟩ := derivedTruthy_some hm
  unfold processEntry
  dsimp only
  rw [parse_mediumId_eq, hd]
  dsimp only
  rw [if_neg hne, hf]

theorem updateById_length (s : List Post) (i : Nat) (f : Post → Post) :
    (updateById s i f).length = s.length := by
  simp [updateById]

theorem updateById_eq_self {s : List Post} {i : Nat} {f : Post → Post}
    (h : ∀ p ∈ s, p.id = i → f p = p) :
    updateById s i f = s := by
  induction s with
  | nil => rfl
  | cons q r ih =>
    unfold updateById at ih ⊢
    simp only [List.map_cons, List.cons.injEq]
    constructor
    · split_ifs with hq
      · exact h q (by simp) hq
      · rfl
    · exact ih (fun p hp hpi => h p (by simp [hp]) hpi)

theorem eq_self_of_updateById {s : List Post} {i : Nat} {f : Post → Post}
    (h : updateById s i f = s) :
    ∀ p ∈ s, p.id = i → f p = p := by
  induction s with
  | nil => intro p hp; simp at hp
  | cons q r ih =>
    unfold updateById at h ih
    simp only [List.map_cons, List.cons.injEq] at h
    intro p hp hpi
    rcases List.mem_cons.mp hp with rfl | hp2
    · have h1 := h.1
      rwa [if_pos hpi] at h1
    · exact ih h.2 p hp2 hpi

theorem find?_mid_updateById (s : List Post) (i : Nat) (f : Post → Post) (m : String)
    (hkeep : ∀ p ∈ s, p.id = i → (f p).mediumId = p.mediumId) :
    (updateById s i f).find? (fun p => p.mediumId == m) =
      (s.find? (fun p => p.mediumId == m)).map (fun p => if p.id = i then f p else p) := by
  induction s with
  | nil => rfl
  | cons q r ih =>
    have hq : ((if q.id = i then f q else q).mediumId == m) = (q.mediumId == m) := by
      split_ifs with hqi
      · rw [hkeep q (by simp) hqi]
      · rfl
    unfold updateById
    simp only [List.map_cons]
    by_cases hqm : (q.mediumId == m) = true
    · rw [@List.find?_cons_of_pos Post (fun p => p.mediumId == m) _ _
          (by show ((if q.id = i then f q else q).mediumId == m) = true; rw [hq]; exact hqm),
        @List.find?_cons_of_pos Post (fun p => p.mediumId == m) _ _ hqm]
      rfl
    · rw [@List.find?_cons_of_neg Post (fun p => p.mediumId == m) _ _
          (by show ¬((if q.id = i then f q else q).mediumId == m) = true; rw [hq]; exact hqm),
        @List.find?_cons_of_neg Post (fun p => p.mediumId == m) _ _ hqm]
      exact ih (fun p hp hpi => hkeep p (by simp [hp]) hpi)

theorem map_proj_updateById {α : Type} (g : Post → α) (s : List Post) (i : Nat)
    (f : Post → Post) (hkeep : ∀ p ∈ s, p.id = i → g (f p) = g p) :
    (updateById s i f).map g = s.map g := by
  induction s with
  | nil => rfl
  | cons q r ih =>
    unfold updateById at ih ⊢
    simp only [List.map_cons, List.map_map, List.cons.injEq] at ih ⊢
    constructor
    · split_ifs with hqi
      · exact hkeep q (by simp) hqi
      · rfl
    · have := ih (fun p hp hpi => hkeep p (by simp [hp]) hpi)
      simpa using this

theorem markSyncFailed_of_none {s : List Post} {mid : String} {now : Int}
    (h : findByMediumId s mid = none) :
    markSyncFailed s mid now = s := by
  induction s with
  | nil => rfl
  | cons q r ih =>
    unfold findByMediumId at h ih
    by_cases hq : (q.mediumId == mid) = true
    · rw [@List.find?_cons_of_pos Post (fun p => p.mediumId == mid) _ _ hq] at h
      simp at h
    · rw [@List.find?_cons_of_neg Post (fun p => p.mediumId == mid) _ _ hq] at h
      unfold markSyncFailed
      rw [if_neg hq, ih h]

theorem id_lt_freshId {s : List Post} {p : Post} (h : p ∈ s) : p.id < freshId s := by
  unfold freshId
  have hle : ∀ (l : List Post), ∀ q ∈ l, q.id ≤ (l.map Post.id).foldr max 0 := by
    intro l
    induction l with
    | nil => intro q hq; simp at hq
    | cons a r ih =>
      intro q hq
      rcases List.mem_cons.mp hq with rfl | hq2
      · simp only [List.map_cons, List.foldr_cons]
        exact Nat.le_max_left _ _
      · simp only [List.map_cons, List.foldr_cons]
        exact Nat.le_trans (ih q hq2) (Nat.le_max_right _ _)
  have := hle s p h
  omega

theorem createdDoc_set_id (i j : Nat) (a : Article) :
    createdDoc i a = { createdDoc j a with id := i } := by
  unfold createdDoc applyPreSave postFillExcerpt postFillMetaDescription postFillMetaTitle
    postFillSlug docOfArticle
  dsimp only
  split_ifs <;> rfl

theorem validate_set_id (p : Post) (i : Nat) :
    validateBlogPost { p with id := i } = validateBlogPost p := rfl

theorem createdDoc_fields (i : Nat) (a : Article) :
    (createdDoc i a).id = i ∧ (createdDoc i a).mediumId = a.mediumId.getD "" ∧
    (createdDoc i a).title = a.title ∧ (createdDoc i a).description = a.description ∧
    (createdDoc i a).content = a.content ∧ (createdDoc i a).author = a.author ∧
    (createdDoc i a).tags = a.tags ∧ (createdDoc i a).categories = a.categories ∧
    (createdDoc i a).mediumUrl = a.mediumUrl.getD "" ∧
    (createdDoc i a).imageUrl = a.imageUrl ∧
    (createdDoc i a).publishedAt = a.publishedAt ∧
    (createdDoc i a).readingTime = a.readingTime ∧
    (createdDoc i a).status = PostStatus.published ∧
    (createdDoc i a).featured = false ∧
    (createdDoc i a).views = 0 ∧ (createdDoc i a).likes = 0 ∧
    (createdDoc i a).lastSyncedAt = a.lastSyncedAt ∧
    (createdDoc i a).syncStatus = a.syncStatus := by
  unfold createdDoc
  obtain ⟨h1, h2, h3, h4, h5, h6, h7, h8, h9, h10, h11, h12, h13, h14, h15, h16, h17, h18⟩ :=
    applyPreSave_fields true (docOfArticle i a)
  exact ⟨h1, h2, h3, h4, h5, h6, h7, h8, h9, h10, h11, h12, h13, h14, h15, h16, h17, h18⟩

theorem blogPostCreate_ok {s : List Post} {i : Nat} {a : Article} {s2 : List Post}
    (h : blogPostCreate s i a = .ok s2) :
    s2 = s ++ [createdDoc i a] ∧ validateBlogPost (createdDoc i a) = true ∧
    s.any (fun p => p.mediumId == (createdDoc i a).mediumId ||
      p.slug == (createdDoc i a).slug) = false := by
  unfold blogPostCreate at h
  dsimp only at h
  split_ifs at h with h1 h2
  cases h
  exact ⟨rfl, by simpa using h1, by simpa using h2⟩

theorem blogPostCreate_err {s : List Post} {i : Nat} {a : Article} {e : String}
    (h : blogPostCreate s i a = .error e) :
    validateBlogPost (createdDoc i a) = false ∨
      s.any (fun p => p.mediumId == (createdDoc i a).mediumId ||
        p.slug == (createdDoc i a).slug) = true := by
  unfold blogPostCreate at h
  dsimp only at h
  split_ifs at h with h1 h2
  · exact Or.inl (by simpa using h1)
  · exact Or.inr h2

theorem blogPostCreate_err_of {s : List Post} {i : Nat} {a : Article}
    (h : validateBlogPost (createdDoc i a) = false ∨
      s.any (fun p => p.mediumId == (createdDoc i a).mediumId ||
        p.slug == (createdDoc i a).slug) = true) :
    ∃ e, blogPostCreate s i a = .error e := by
  unfold blogPostCreate
  dsimp only
  split_ifs with h1 h2
  · exact ⟨_, rfl⟩
  · exact ⟨_, rfl⟩
  · exfalso
    rcases h with h | h
    · simp [h] at h1
    · exact h2 h

theorem findByMediumId_some {s : List Post} {m : String} {ex : Post}
    (h : findByMediumId s m = some ex) : ex ∈ s ∧ ex.mediumId = m :=
  ⟨List.mem_of_find?_eq_some h, by simpa using List.find?_some h⟩

theorem findByMediumId_none {s : List Post} {m : String}
    (h : findByMediumId s m = none) : ∀ p ∈ s, p.mediumId ≠ m := by
  intro p hp
  have := List.find?_eq_none.mp h p hp
  simpa using this

theorem eq_of_mem_of_id_eq {s : List Post} (hids : (s.map Post.id).Nodup)
    {p q : Post} (hp : p ∈ s) (hq : q ∈ s) (h : p.id = q.id) : p = q :=
  List.inj_on_of_nodup_map hids hp hq h

theorem applyArticleUpdate_id (a : Article) (ex p : Post) :
    (applyArticleUpdate a ex p).id = p.id := rfl

theorem applyArticleUpdate_slug (a : Article) (ex p : Post) :
    (applyArticleUpdate a ex p).slug = p.slug := rfl

theorem applyArticleUpdate_mediumId {a : Article} {m : String} (ex p : Post)
    (h : a.mediumId = some m) :
    (applyArticleUpdate a ex p).mediumId = m := by
  simp [applyArticleUpdate, h]

theorem nodup_append_one {α : Type} {l : List α} {a : α}
    (h : l.Nodup) (ha : a ∉ l) : (l ++ [a]).Nodup := by
  simp only [List.nodup_append, List.nodup_cons, List.not_mem_nil, not_false_iff,
    List.nodup_nil, and_true, List.disjoint_singleton]
  exact ⟨h, trivial, ha⟩

theorem map_append_one {α : Type} (g : Post → α) (s : List Post) (d : Post) :
    (s ++ [d]).map g = s.map g ++ [g d] := by
  simp

/-- Processing one entry preserves store well-formedness. -/
theorem storeWF_stepStore {now : Int} {s : List Post} {x : FeedItem}
    (h : storeWF s) : storeWF (stepStore now s x) := by
  obtain ⟨hids, hmids⟩ := h
  rcases hdm : derivedMediumIdTruthy x with _ | m
  · rw [stepStore, processEntry_skip hdm]
    exact ⟨hids, hmids⟩
  · rcases hf : findByMediumId s m with _ | ex
    · rw [stepStore, processEntry_notFound hdm hf]
      rcases hc : blogPostCreate s (freshId s) (parseMediumArticle now x) with e | s2
      · dsimp only
        rw [markSyncFailed_of_none hf]
        exact ⟨hids, hmids⟩
      · dsimp only
        obtain ⟨hs2, hval, hdup⟩ := blogPostCreate_ok hc
        subst hs2
        have hdocmid : (createdDoc (freshId s) (parseMediumArticle now x)).mediumId = m := by
          have hd := (derivedTruthy_some hdm).1
          have : (parseMediumArticle now x).mediumId = some m := by
            rw [parse_mediumId_eq]; exact hd
          rw [(createdDoc_fields (freshId s) (parseMediumArticle now x)).2.1, this]
          rfl
        constructor
        · rw [map_append_one]
          refine nodup_append_one hids ?_
          rw [(createdDoc_fields (freshId s) (parseMediumArticle now x)).1]
          intro hin
          obtain ⟨p, hp, hpid⟩ := List.mem_map.mp hin
          have := id_lt_freshId hp
          omega
        · rw [map_append_one, hdocmid]
          refine nodup_append_one hmids ?_
          intro hin
          obtain ⟨p, hp, hpm⟩ := List.mem_map.mp hin
          exact findByMediumId_none hf p hp hpm
    · rw [stepStore, processEntry_found hdm hf]
      split_ifs with hu
      · dsimp only
        obtain ⟨hexmem, hexmid⟩ := findByMediumId_some hf
        have ha : (parseMediumArticle now x).mediumId = some m := by
          rw [parse_mediumId_eq]; exact (derivedTruthy_some hdm).1
        constructor
        · rw [map_proj_updateById Post.id s ex.id
            (applyArticleUpdate (parseMediumArticle now x) ex) (fun p hp hpi => rfl)]
          exact hids
        · rw [map_proj_updateById Post.mediumId s ex.id
            (applyArticleUpdate (parseMediumArticle now x) ex) ?_]
          · exact hmids
          · intro p hp hpi
            have hpex : p = ex := eq_of_mem_of_id_eq hids hp hexmem hpi
            rw [applyArticleUpdate_mediumId ex p ha, hpex, hexmid]
      · exact ⟨hids, hmids⟩

/-- Well-formedness is preserved by a whole batch. -/
theorem storeWF_postsAfter {now : Int} {s : List Post} {items : List FeedItem}
    (h : storeWF s) : storeWF (postsAfter now s items) := by
  induction items generalizing s with
  | nil => exact h
  | cons x r ih =>
    rw [postsAfter, List.foldl_cons]
    exact ih (storeWF_stepStore h)

theorem foldl_syncStep_fst (now : Int) :
    ∀ (items : List FeedItem) (s : List Post) (a b : Nat),
      (items.foldl (syncStep now) (s, a, b)).1 = items.foldl (stepStore now) s := by
  intro items
  induction items with
  | nil => intro s a b; rfl
  | cons x r ih =>
    intro s a b
    simp only [List.foldl_cons]
    exact ih _ _ _

theorem syncArticles_posts (s : List Post) (items : List FeedItem) (now : Int) :
    (syncArticles ⟨s, false⟩ (Except.ok items) now).2.posts = postsAfter now s items := by
  unfold syncArticles
  dsimp only
  rw [if_neg (by simp)]
  exact foldl_syncStep_fst now items s 0 0

theorem postsAfter_append (now : Int) (s : List Post) (l1 l2 : List FeedItem) :
    postsAfter now s (l1 ++ l2) = postsAfter now (postsAfter now s l1) l2 := by
  unfold postsAfter
  exact List.foldl_append _ _ _ _

/-- Witness for C8 at a concrete two-post store. -/
theorem viewIncrementExact_witness :
    (∃ rel, (getBlogPost "live" [draftPost, publishedPost]).1 =
      GetPostResponse.ok (bumpViews publishedPost) rel) ∧
    (bumpViews publishedPost).views = publishedPost.views + 1 ∧
    (bumpViews publishedPost).likes = publishedPost.likes ∧
    publishedPost.slug = "live" ∧ publishedPost.status = PostStatus.published ∧
    (getBlogPost "live" [draftPost, publishedPost]).2 =
      updateById [draftPost, publishedPost] publishedPost.id (fun _ => bumpViews publishedPost) ∧
    (∀ r ∈ [draftPost, publishedPost], r ≠ publishedPost →
      r ∈ (getBlogPost "live" [draftPost, publishedPost]).2) ∧
    ((getBlogPost "live" [draftPost, publishedPost]).2).length =
      ([draftPost, publishedPost] : List Post).length :=
  viewIncrementExact [draftPost, publishedPost] "live" publishedPost
    (by decide) (by decide) (by decide)

/-! ### C1: reconciliation of an entry against an existing stored post -/

/--
C1: when a feed entry's derived external identifier matches a stored post, the
sync loop overwrites that post's content fields if and only if the entry's publish
timestamp is strictly newer, or the stored syncStatus is failed, or the last sync
is more than 24 hours old (`shouldUpdate`); an overwrite carries the stored views,
likes and featured values forward unchanged and touches no other post, and when
the condition fails the store is left entirely unchanged.
-/
theorem reconcileExistingEntry (now : Int) (s : List Post) (x : FeedItem) (m : String)
    (ex : Post) (hids : (s.map Post.id).Nodup)
    (hdm : derivedMediumIdTruthy x = some m)
    (hf : findByMediumId s m = some ex) :
    (shouldUpdate now (parseMediumArticle now x) ex = true →
      stepStore now s x =
        updateById s ex.id (applyArticleUpdate (parseMediumArticle now x) ex) ∧
      applyArticleUpdate (parseMediumArticle now x) ex ex ∈ stepStore now s x ∧
      (applyArticleUpdate (parseMediumArticle now x) ex ex).views = ex.views ∧
      (applyArticleUpdate (parseMediumArticle now x) ex ex).likes = ex.likes ∧
      (applyArticleUpdate (parseMediumArticle now x) ex ex).featured = ex.featured ∧
      (applyArticleUpdate (parseMediumArticle now x) ex ex).title =
        (parseMediumArticle now x).title ∧
      (applyArticleUpdate (parseMediumArticle now x) ex ex).description =
        (parseMediumArticle now x).description ∧
      (applyArticleUpdate (parseMediumArticle now x) ex ex).content =
        (parseMediumArticle now x).content ∧
      (applyArticleUpdate (parseMediumArticle now x) ex ex).excerpt =
        (parseMediumArticle now x).excerpt ∧
      (applyArticleUpdate (parseMediumArticle now x) ex ex).author =
        (parseMediumArticle now x).author ∧
      (applyArticleUpdate (parseMediumArticle now x) ex ex).imageUrl =
        (parseMediumArticle now x).imageUrl ∧
      (applyArticleUpdate (parseMediumArticle now x) ex ex).publishedAt =
        (parseMediumArticle now x).publishedAt ∧
      (applyArticleUpdate (parseMediumArticle now x) ex ex).readingTime =
        (parseMediumArticle now x).readingTime ∧
      (applyArticleUpdate (parseMediumArticle now x) ex ex).tags =
        (parseMediumArticle now x).tags ∧
      (applyArticleUpdate (parseMediumArticle now x) ex ex).categories =
        (parseMediumArticle now x).categories ∧
      (applyArticleUpdate (parseMediumArticle now x) ex ex).lastSyncedAt = now ∧
      (applyArticleUpdate (parseMediumArticle now x) ex ex).syncStatus =
        SyncStatus.synced ∧
      (∀ p ∈ s, p ≠ ex → p ∈ stepStore now s x)) ∧
    (shouldUpdate now (parseMediumArticle now x) ex = false →
      processEntry now s x = (s, 0, 0)) := by
  have hexmem := (findByMediumId_some hf).1
  constructor
  · intro hu
    have hstep : stepStore now s x =
        updateById s ex.id (applyArticleUpdate (parseMediumArticle now x) ex) := by
      rw [stepStore, processEntry_found hdm hf, if_pos hu]
    refine ⟨hstep, ?_, rfl, rfl, rfl, rfl, rfl, rfl, rfl, rfl, rfl, rfl, rfl, rfl, rfl,
      rfl, rfl, ?_⟩
    · rw [hstep]
      have hm := List.mem_map_of_mem
        (fun p => if p.id = ex.id then applyArticleUpdate (parseMediumArticle now x) ex p
          else p) hexmem
      dsimp only at hm
      rw [if_pos rfl] at hm
      exact hm
    · intro p hp hne
      rw [hstep]
      have hpi : p.id ≠ ex.id := fun h => hne (eq_of_mem_of_id_eq hids hp hexmem h)
      have hm := List.mem_map_of_mem
        (fun p => if p.id = ex.id then applyArticleUpdate (parseMediumArticle now x) ex p
          else p) hp
      dsimp only at hm
      rw [if_neg hpi] at hm
      exact hm
  · intro hu
    rw [processEntry_found hdm hf, if_neg (by simp [hu])]

/-- Witness for C1: an entry with a strictly newer publish date updating the
stored post with the same derived identifier. -/
theorem reconcileExistingEntry_witness :
    (shouldUpdate 5 (parseMediumArticle 5 feedItemA) draftPost = true →
      stepStore 5 [draftPost] feedItemA =
        updateById [draftPost] draftPost.id
          (applyArticleUpdate (parseMediumArticle 5 feedItemA) draftPost) ∧
      applyArticleUpdate (parseMediumArticle 5 feedItemA) draftPost draftPost ∈
        stepStore 5 [draftPost] feedItemA ∧
      (applyArticleUpdate (parseMediumArticle 5 feedItemA) draftPost draftPost).views =
        draftPost.views ∧
      (applyArticleUpdate (parseMediumArticle 5 feedItemA) draftPost draftPost).likes =
        draftPost.likes ∧
      (applyArticleUpdate (parseMediumArticle 5 feedItemA) draftPost draftPost).featured =
        draftPost.featured ∧
      (applyArticleUpdate (parseMediumArticle 5 feedItemA) draftPost draftPost).title =
        (parseMediumArticle 5 feedItemA).title ∧
      (applyArticleUpdate (parseMediumArticle 5 feedItemA) draftPost draftPost).description =
        (parseMediumArticle 5 feedItemA).description ∧
      (applyArticleUpdate (parseMediumArticle 5 feedItemA) draftPost draftPost).content =
        (parseMediumArticle 5 feedItemA).content ∧
      (applyArticleUpdate (parseMediumArticle 5 feedItemA) draftPost draftPost).excerpt =
        (parseMediumArticle 5 feedItemA).excerpt ∧
      (applyArticleUpdate (parseMediumArticle 5 feedItemA) draftPost draftPost).author =
        (parseMediumArticle 5 feedItemA).author ∧
      (applyArticleUpdate (parseMediumArticle 5 feedItemA) draftPost draftPost).imageUrl =
        (parseMediumArticle 5 feedItemA).imageUrl ∧
      (applyArticleUpdate (parseMediumArticle 5 feedItemA) draftPost draftPost).publishedAt =
        (parseMediumArticle 5 feedItemA).publishedAt ∧
      (applyArticleUpdate (parseMediumArticle 5 feedItemA) draftPost draftPost).readingTime =
        (parseMediumArticle 5 feedItemA).readingTime ∧
      (applyArticleUpdate (parseMediumArticle 5 feedItemA) draftPost draftPost).tags =
        (parseMediumArticle 5 feedItemA).tags ∧
      (applyArticleUpdate (parseMediumArticle 5 feedItemA) draftPost draftPost).categories =
        (parseMediumArticle 5 feedItemA).categories ∧
      (applyArticleUpdate (parseMediumArticle 5 feedItemA) draftPost draftPost).lastSyncedAt =
        5 ∧
      (applyArticleUpdate (parseMediumArticle 5 feedItemA) draftPost draftPost).syncStatus =
        SyncStatus.synced ∧
      (∀ p ∈ [draftPost], p ≠ draftPost → p ∈ stepStore 5 [draftPost] feedItemA)) ∧
    (shouldUpdate 5 (parseMediumArticle 5 feedItemA) draftPost = false →
      processEntry 5 [draftPost] feedItemA = ([draftPost], 0, 0)) :=
  reconcileExistingEntry 5 [draftPost] feedItemA "aa11" draftPost
    (by decide) (by decide) (by decide)

/-! ### C3: at most one stored post per external identifier -/

/--
C3: with distinct stored identifiers, a whole sync keeps the mediumIds distinct,
and processing an entry whose derived identifier is already stored never changes
the number of posts nor the multiset of stored mediumIds — it updates, never
inserts.
-/
theorem mediumIdUniqueInvariant (now : Int) (s : List Post) (items : List FeedItem)
    (x : FeedItem) (m : String) (hwf : storeWF s) :
    (((syncArticles ⟨s, false⟩ (Except.ok items) now).2.posts).map Post.mediumId).Nodup ∧
    (derivedMediumIdTruthy x = some m → m ∈ s.map Post.mediumId →
      (stepStore now s x).length = s.length ∧
      (stepStore now s x).map Post.mediumId = s.map Post.mediumId) := by
  constructor
  · rw [syncArticles_posts]
    exact (storeWF_postsAfter hwf).2
  · intro hdm hmem
    have hne : findByMediumId s m ≠ none := by
      intro hnone
      obtain ⟨p, hp, hpm⟩ := List.mem_map.mp hmem
      exact findByMediumId_none hnone p hp hpm
    rcases hf : findByMediumId s m with _ | ex
    · exact absurd hf hne
    obtain ⟨hexmem, hexmid⟩ := findByMediumId_some hf
    have ha : (parseMediumArticle now x).mediumId = some m := by
      rw [parse_mediumId_eq]
      exact (derivedTruthy_some hdm).1
    have hkeep : ∀ p ∈ s, p.id = ex.id →
        (applyArticleUpdate (parseMediumArticle now x) ex p).mediumId = p.mediumId := by
      intro p hp hpi
      have hpex : p = ex := eq_of_mem_of_id_eq hwf.1 hp hexmem hpi
      rw [applyArticleUpdate_mediumId ex p ha, hpex, hexmid]
    constructor
    · rw [stepStore, processEntry_found hdm hf]
      split_ifs
      · exact updateById_length s ex.id _
      · rfl
    · rw [stepStore, processEntry_found hdm hf]
      split_ifs
      · exact map_proj_updateById Post.mediumId s ex.id _ hkeep
      · rfl

/-- Witness for C3 at a one-post store and a one-entry feed. -/
theorem mediumIdUniqueInvariant_witness :
    (((syncArticles ⟨[draftPost], false⟩ (Except.ok [feedItemA]) 5).2.posts).map
      Post.mediumId).Nodup ∧
    (derivedMediumIdTruthy feedItemA = some "aa11" →
      "aa11" ∈ [draftPost].map Post.mediumId →
      (stepStore 5 [draftPost] feedItemA).length = ([draftPost] : List Post).length ∧
      (stepStore 5 [draftPost] feedItemA).map Post.mediumId =
        [draftPost].map Post.mediumId) :=
  mediumIdUniqueInvariant 5 [draftPost] [feedItemA] feedItemA "aa11" (by decide)

/-! ### C5: entries without a derivable identifier are skipped -/

/--
C5: an entry whose guid and link are both absent derives no external identifier
(`generateMediumId` yields `null`); processing it leaves the store untouched and
counts nothing, and a batch containing it still processes all other entries
exactly as if the entry were not there.
-/
theorem skipUnderivableEntry (now : Int) (s posts : List Post) (x : FeedItem)
    (pre suf : List FeedItem) (hg : x.guid = none) (hl : x.link = none) :
    generateMediumId (jsOrStr x.guid x.link) = none ∧
    processEntry now s x = (s, 0, 0) ∧
    postsAfter now posts (pre ++ x :: suf) =
      postsAfter now (postsAfter now posts pre) suf := by
  have hgen : generateMediumId (jsOrStr x.guid x.link) = none := by
    rw [hg, hl]
    rfl
  have hdm : derivedMediumIdTruthy x = none := by
    unfold derivedMediumIdTruthy derivedMediumId
    rw [hgen]
  refine ⟨hgen, processEntry_skip hdm, ?_⟩
  rw [postsAfter_append now posts pre (x :: suf), postsAfter, List.foldl_cons,
    show stepStore now (postsAfter now posts pre) x = postsAfter now posts pre from by
      rw [stepStore, processEntry_skip hdm]]
  rfl

/-- Witness for C5: a guid-less entry between two normal entries. -/
theorem skipUnderivableEntry_witness :
    generateMediumId (jsOrStr feedItemNoGuid.guid feedItemNoGuid.link) = none ∧
    processEntry 5 [draftPost] feedItemNoGuid = ([draftPost], 0, 0) ∧
    postsAfter 5 [draftPost] ([feedItemA] ++ feedItemNoGuid :: [feedItemB]) =
      postsAfter 5 (postsAfter 5 [draftPost] [feedItemA]) [feedItemB] :=
  skipUnderivableEntry 5 [draftPost] [draftPost] feedItemNoGuid [feedItemA] [feedItemB]
    (by decide) (by decide)

/-! ### C4: syncArticles always resolves to a structured result -/

theorem processEntry_delta (now : Int) (s : List Post) (x : FeedItem) :
    (processEntry now s x).2.1 + (processEntry now s x).2.2 ≤ 1 := by
  rcases hdm : derivedMediumIdTruthy x with _ | m
  · rw [processEntry_skip hdm]
    simp
  · rcases hf : findByMediumId s m with _ | ex
    · rw [processEntry_notFound hdm hf]
      rcases blogPostCreate s (freshId s) (parseMediumArticle now x) with e | s2 <;> simp
    · rw [processEntry_found hdm hf]
      split_ifs <;> simp

theorem foldl_syncStep_counts (now : Int) :
    ∀ (items : List FeedItem) (s : List Post) (a b : Nat),
      (items.foldl (syncStep now) (s, a, b)).2.1 +
        (items.foldl (syncStep now) (s, a, b)).2.2 ≤ a + b + items.length := by
  intro items
  induction items with
  | nil => intro s a b; simp
  | cons x r ih =>
    intro s a b
    simp only [List.foldl_cons, List.length_cons]
    have hd := processEntry_delta now s x
    have hr := ih (processEntry now s x).1 (a + (processEntry now s x).2.1)
      (b + (processEntry now s x).2.2)
    have hstep : syncStep now (s, a, b) x =
        ((processEntry now s x).1, a + (processEntry now s x).2.1,
          b + (processEntry now s x).2.2) := rfl
    rw [hstep]
    omega

/--
C4: `syncArticles` is a total function into structured results: a busy flag yields
the in-progress result without touching anything, a failed feed fetch yields a
failure result with the counts gathered so far and an untouched store, and a
fetched feed always yields a success result whose counts are bounded by the number
of entries, with the store being the fold of per-entry processing — and a failing
entry does not abort the remaining entries, which are processed from the state it
left behind.
-/
theorem syncNeverThrows (posts : List Post) (busy : Bool)
    (fetch : Except String (List FeedItem)) (now : Int) :
    (busy = true →
      syncArticles ⟨posts, busy⟩ fetch now =
        ({ success := false, message := some "Sync already in progress" },
          ⟨posts, true⟩)) ∧
    (busy = false →
      (syncArticles ⟨posts, busy⟩ fetch now).2.syncInProgress = false ∧
      (∀ e, fetch = .error e →
        (syncArticles ⟨posts, busy⟩ fetch now).1 =
          { success := false, error := some e, syncedCount := some 0,
            errorCount := some 0 } ∧
        (syncArticles ⟨posts, busy⟩ fetch now).2.posts = posts) ∧
      (∀ items, fetch = .ok items →
        (syncArticles ⟨posts, busy⟩ fetch now).1.success = true ∧
        (syncArticles ⟨posts, busy⟩ fetch now).1.totalProcessed = some items.length ∧
        (∃ sc ec, (syncArticles ⟨posts, busy⟩ fetch now).1.syncedCount = some sc ∧
          (syncArticles ⟨posts, busy⟩ fetch now).1.errorCount = some ec ∧
          sc + ec ≤ items.length) ∧
        (syncArticles ⟨posts, busy⟩ fetch now).2.posts = postsAfter now posts items)) ∧
    (∀ (s : List Post) (pre : List FeedItem) (bad : FeedItem) (suf : List FeedItem),
      postsAfter now s (pre ++ bad :: suf) =
        postsAfter now (stepStore now (postsAfter now s pre) bad) suf) := by
  refine ⟨?_, ?_, ?_⟩
  · intro hb
    subst hb
    unfold syncArticles
    rw [if_pos rfl]
  · intro hb
    subst hb
    refine ⟨?_, ?_, ?_⟩
    · unfold syncArticles
      rw [if_neg (by simp)]
      rcases fetch with e | items <;> rfl
    · intro e he
      subst he
      unfold syncArticles
      rw [if_neg (by simp)]
      exact ⟨rfl, rfl⟩
    · intro items hi
      subst hi
      unfold syncArticles
      rw [if_neg (by simp)]
      refine ⟨rfl, rfl, ⟨_, _, rfl, rfl, ?_⟩, ?_⟩
      · have := foldl_syncStep_counts now items posts 0 0
        simpa using this
      · exact foldl_syncStep_fst now items posts 0 0
  · intro s pre bad suf
    rw [postsAfter_append now s pre (bad :: suf), postsAfter, List.foldl_cons]
    rfl

/-- Witness for C4: the busy, fetch-failure and success cases at concrete inputs,
with a feed containing an entry (`feedItemNoGuid`) that cannot be ingested. -/
theorem syncNeverThrows_witness :
    syncArticles ⟨[draftPost], true⟩ (Except.ok [feedItemA]) 5 =
      ({ success := false, message := some "Sync already in progress" },
        ⟨[draftPost], true⟩) ∧
    (syncArticles ⟨[draftPost], false⟩
        (Except.error "Failed to fetch Medium articles: timeout") 5).1 =
      { success := false, error := some "Failed to fetch Medium articles: timeout",
        syncedCount := some 0, errorCount := some 0 } ∧
    (syncArticles ⟨[draftPost], false⟩
      (Except.ok [feedItemA, feedItemNoGuid, feedItemB]) 5).1.success = true ∧
    (syncArticles ⟨[draftPost], false⟩
        (Except.ok [feedItemA, feedItemNoGuid, feedItemB]) 5).1.totalProcessed =
      some 3 ∧
    (∃ sc ec,
      (syncArticles ⟨[draftPost], false⟩
          (Except.ok [feedItemA, feedItemNoGuid, feedItemB]) 5).1.syncedCount =
        some sc ∧
      (syncArticles ⟨[draftPost], false⟩
          (Except.ok [feedItemA, feedItemNoGuid, feedItemB]) 5).1.errorCount =
        some ec ∧
      sc + ec ≤ 3) := by
  have ht := syncNeverThrows [draftPost] true (Except.ok [feedItemA]) 5
  have he := syncNeverThrows [draftPost] false
    (Except.error "Failed to fetch Medium articles: timeout") 5
  have ho := syncNeverThrows [draftPost] false
    (Except.ok [feedItemA, feedItemNoGuid, feedItemB]) 5
  exact ⟨ht.1 rfl, ((he.2.1 rfl).2.1 _ rfl).1, ((ho.2.1 rfl).2.2 _ rfl).1,
    ((ho.2.1 rfl).2.2 _ rfl).2.1, ((ho.2.1 rfl).2.2 _ rfl).2.2.1⟩

/-! ### Stability of processed entries (towards C2) -/

theorem dateGt_irrefl (o : Option Int) : dateGt o o = false := by
  cases o <;> simp [dateGt]

theorem shouldUpdate_false_of {now : Int} {a : Article} {doc : Post}
    (h1 : doc.publishedAt = a.publishedAt) (h2 : doc.syncStatus = SyncStatus.synced)
    (h3 : doc.lastSyncedAt = a.lastSyncedAt) (h4 : a.lastSyncedAt = now) :
    shouldUpdate now a doc = false := by
  unfold shouldUpdate
  rw [h1, h2, h3, h4, dateGt_irrefl]
  simp

theorem parse_lastSyncedAt (now : Int) (x : FeedItem) :
    (parseMediumArticle now x).lastSyncedAt = now := rfl

theorem parse_syncStatus (now : Int) (x : FeedItem) :
    (parseMediumArticle now x).syncStatus = SyncStatus.synced := rfl

theorem createdDoc_mediumId_of (now : Int) (x : FeedItem) {m : String} (i : Nat)
    (hdm : derivedMediumIdTruthy x = some m) :
    (createdDoc i (parseMediumArticle now x)).mediumId = m := by
  rw [(createdDoc_fields i _).2.1, parse_mediumId_eq, (derivedTruthy_some hdm).1]
  rfl

theorem applyArticleUpdate_fresh_fields (a : Article) (ex p : Post) :
    (applyArticleUpdate a ex p).publishedAt = a.publishedAt ∧
    (applyArticleUpdate a ex p).syncStatus = a.syncStatus ∧
    (applyArticleUpdate a ex p).lastSyncedAt = a.lastSyncedAt :=
  ⟨rfl, rfl, rfl⟩

theorem findByMediumId_append_none {s : List Post} {d : Post} {m : String}
    (hf : findByMediumId s m = none) (hd : d.mediumId ≠ m) :
    findByMediumId (s ++ [d]) m = none := by
  unfold findByMediumId at hf ⊢
  rw [List.find?_append, hf]
  simp [hd]

theorem findByMediumId_append_self {s : List Post} {d : Post} {m : String}
    (hf : findByMediumId s m = none) (hd : d.mediumId = m) :
    findByMediumId (s ++ [d]) m = some d := by
  unfold findByMediumId at hf ⊢
  rw [List.find?_append, hf]
  simp [hd]

theorem findByMediumId_append_found {s : List Post} {d : Post} {m : String} {ex : Post}
    (hf : findByMediumId s m = some ex) :
    findByMediumId (s ++ [d]) m = some ex := by
  unfold findByMediumId at hf ⊢
  rw [List.find?_append, hf]
  rfl

theorem findByMediumId_updateById {s : List Post} {i : Nat} {f : Post → Post}
    {m : String} (hkeep : ∀ p ∈ s, p.id = i → (f p).mediumId = p.mediumId) :
    findByMediumId (updateById s i f) m =
      (findByMediumId s m).map (fun p => if p.id = i then f p else p) := by
  unfold findByMediumId
  exact find?_mid_updateById s i f m hkeep

theorem stable_create_err {now : Int} {s : List Post} {x : FeedItem} {mx : String}
    (hdmx : derivedMediumIdTruthy x = some mx) (hfx : findByMediumId s mx = none)
    (hst : stableEntry now s x) :
    ∃ e, blogPostCreate s (freshId s) (parseMediumArticle now x) = .error e := by
  rcases hcx : blogPostCreate s (freshId s) (parseMediumArticle now x) with e | s2x
  · exact ⟨_, rfl⟩
  · exfalso
    have hxy := hst
    rw [stableEntry, stepStore, processEntry_notFound hdmx hfx, hcx] at hxy
    dsimp only at hxy
    obtain ⟨hs2x, -, -⟩ := blogPostCreate_ok hcx
    rw [hs2x] at hxy
    have := congrArg List.length hxy
    simp at this

theorem any_map_general {α β : Type} (f : α → β) (l : List α) (p : β → Bool) :
    (l.map f).any p = l.any (fun a => p (f a)) := by
  induction l with
  | nil => rfl
  | cons x r ih => simp only [List.map_cons, List.any_cons, ih]

theorem create_err_transfer (s s2 : List Post) (i j : Nat) (a : Article)
    (hproj : s2.map (fun p => (p.mediumId, p.slug)) = s.map (fun p => (p.mediumId, p.slug)))
    (h : ∃ e, blogPostCreate s i a = .error e) :
    ∃ e2, blogPostCreate s2 j a = .error e2 := by
  obtain ⟨e, he⟩ := h
  apply blogPostCreate_err_of
  rcases blogPostCreate_err he with hv | hdup
  · left
    rw [createdDoc_set_id j i, validate_set_id]
    exact hv
  · right
    have hmid : (createdDoc j a).mediumId = (createdDoc i a).mediumId := by
      rw [createdDoc_set_id j i]
    have hslug : (createdDoc j a).slug = (createdDoc i a).slug := by
      rw [createdDoc_set_id j i]
    rw [hmid, hslug]
    have h1 : s2.any (fun p => p.mediumId == (createdDoc i a).mediumId ||
        p.slug == (createdDoc i a).slug) =
        (s2.map (fun p => (p.mediumId, p.slug))).any
          (fun q => q.1 == (createdDoc i a).mediumId || q.2 == (createdDoc i a).slug) := by
      rw [any_map_general]
    have h2 : s.any (fun p => p.mediumId == (createdDoc i a).mediumId ||
        p.slug == (createdDoc i a).slug) =
        (s.map (fun p => (p.mediumId, p.slug))).any
          (fun q => q.1 == (createdDoc i a).mediumId || q.2 == (createdDoc i a).slug) := by
      rw [any_map_general]
    rw [h1, hproj, ← h2]
    exact hdup

/-- Processing an entry makes that entry stable: running it again right away at
the same instant changes nothing. -/
theorem stable_after_step {now : Int} {s : List Post} {x : FeedItem}
    (hwf : storeWF s) : stableEntry now (stepStore now s x) x := by
  rcases hdm : derivedMediumIdTruthy x with _ | m
  · rw [stableEntry, stepStore, processEntry_skip hdm, stepStore, processEntry_skip hdm]
  · rcases hf : findByMediumId s m with _ | ex
    · rcases hc : blogPostCreate s (freshId s) (parseMediumArticle now x) with e | s2
      · have hstep : stepStore now s x = s := by
          rw [stepStore, processEntry_notFound hdm hf, hc]
          exact markSyncFailed_of_none hf
        rw [hstep, stableEntry, hstep]
      · have hstep : stepStore now s x = s2 := by
          rw [stepStore, processEntry_notFound hdm hf, hc]
        obtain ⟨hs2, -, -⟩ := blogPostCreate_ok hc
        have hdocmid := createdDoc_mediumId_of now x (freshId s) hdm
        have hfind2 : findByMediumId s2 m =
            some (createdDoc (freshId s) (parseMediumArticle now x)) := by
          rw [hs2]
          exact findByMediumId_append_self hf hdocmid
        rw [stableEntry, hstep, stepStore, processEntry_found hdm hfind2, if_neg ?_]
        rw [Bool.not_eq_true]
        exact shouldUpdate_false_of
          (createdDoc_fields (freshId s) (parseMediumArticle now x)).2.2.2.2.2.2.2.2.2.2.1
          ((createdDoc_fields (freshId s)
            (parseMediumArticle now x)).2.2.2.2.2.2.2.2.2.2.2.2.2.2.2.2.2.trans
            (parse_syncStatus now x))
          (createdDoc_fields (freshId s)
            (parseMediumArticle now x)).2.2.2.2.2.2.2.2.2.2.2.2.2.2.2.2.1
          (parse_lastSyncedAt now x)
    · obtain ⟨hexmem, hexmid⟩ := findByMediumId_some hf
      have ha : (parseMediumArticle now x).mediumId = some m := by
        rw [parse_mediumId_eq]
        exact (derivedTruthy_some hdm).1
      by_cases hu : shouldUpdate now (parseMediumArticle now x) ex = true
      · have hkeep : ∀ p ∈ s, p.id = ex.id →
            (applyArticleUpdate (parseMediumArticle now x) ex p).mediumId = p.mediumId := by
          intro p hp hpi
          have hpex : p = ex := eq_of_mem_of_id_eq hwf.1 hp hexmem hpi
          rw [applyArticleUpdate_mediumId ex p ha, hpex, hexmid]
        have hstep : stepStore now s x =
            updateById s ex.id (applyArticleUpdate (parseMediumArticle now x) ex) := by
          rw [stepStore, processEntry_found hdm hf, if_pos hu]
        have hfind2 : findByMediumId
            (updateById s ex.id (applyArticleUpdate (parseMediumArticle now x) ex)) m =
            some (applyArticleUpdate (parseMediumArticle now x) ex ex) := by
          rw [findByMediumId_updateById hkeep, hf]
          simp
        rw [stableEntry, hstep, stepStore, processEntry_found hdm hfind2, if_neg ?_]
        rw [Bool.not_eq_true]
        exact shouldUpdate_false_of rfl (parse_syncStatus now x) rfl (parse_lastSyncedAt now x)
      · have hstep : stepStore now s x = s := by
          rw [stepStore, processEntry_found hdm hf, if_neg hu]
        rw [stableEntry, hstep, hstep]

theorem create_err_monotone (s : List Post) (d : Post) (i j : Nat) (a : Article)
    (h : ∃ e, blogPostCreate s i a = .error e) :
    ∃ e2, blogPostCreate (s ++ [d]) j a = .error e2 := by
  obtain ⟨e, he⟩ := h
  apply blogPostCreate_err_of
  rcases blogPostCreate_err he with hv | hdup
  · left
    rw [createdDoc_set_id j i, validate_set_id]
    exact hv
  · right
    have hmid : (createdDoc j a).mediumId = (createdDoc i a).mediumId := by
      rw [createdDoc_set_id j i]
    have hslug : (createdDoc j a).slug = (createdDoc i a).slug := by
      rw [createdDoc_set_id j i]
    rw [hmid, hslug, List.any_append, hdup]
    rfl

/--
Processing a different entry (one deriving a different — or no — usable external
identifier) preserves the stability of an entry.
-/
theorem stable_preserved {now : Int} {s : List Post} {x y : FeedItem}
    (hwf : storeWF s) (hst : stableEntry now s x) (hdisj : disjointMid x y) :
    stableEntry now (stepStore now s y) x := by
  rcases hdmx : derivedMediumIdTruthy x with _ | mx
  · rw [stableEntry, stepStore, processEntry_skip hdmx]
  rcases hdmy : derivedMediumIdTruthy y with _ | my
  · rw [stableEntry, show stepStore now s y = s from by rw [stepStore, processEntry_skip hdmy]]
    exact hst
  have hmxy : mx ≠ my := by
    rcases hdisj with h | h | h
    · rw [hdmx] at h
      simp at h
    · rw [hdmy] at h
      simp at h
    · intro he
      apply h
      rw [hdmx, hdmy, he]
  have ha_y : (parseMediumArticle now y).mediumId = some my := by
    rw [parse_mediumId_eq]
    exact (derivedTruthy_some hdmy).1
  rcases hfy : findByMediumId s my with _ | exY
  · rcases hc : blogPostCreate s (freshId s) (parseMediumArticle now y) with e | s2
    · have hstepy : stepStore now s y = s := by
        rw [stepStore, processEntry_notFound hdmy hfy, hc]
        exact markSyncFailed_of_none hfy
      rw [stableEntry, hstepy]
      exact hst
    · obtain ⟨hs2, -, -⟩ := blogPostCreate_ok hc
      have hstepy : stepStore now s y =
          s ++ [createdDoc (freshId s) (parseMediumArticle now y)] := by
        rw [stepStore, processEntry_notFound hdmy hfy, hc]
        exact hs2
      have hdocYmid : (createdDoc (freshId s) (parseMediumArticle now y)).mediumId = my :=
        createdDoc_mediumId_of now y (freshId s) hdmy
      have hdocYid : (createdDoc (freshId s) (parseMediumArticle now y)).id = freshId s :=
        (createdDoc_fields _ _).1
      rcases hfx : findByMediumId s mx with _ | exX
      · have herr := stable_create_err hdmx hfx hst
        have hfx2 : findByMediumId
            (s ++ [createdDoc (freshId s) (parseMediumArticle now y)]) mx = none :=
          findByMediumId_append_none hfx
            (by rw [hdocYmid]; exact fun hh => hmxy hh.symm)
        obtain ⟨e2, he2⟩ := create_err_monotone s
          (createdDoc (freshId s) (parseMediumArticle now y)) (freshId s)
          (freshId (s ++ [createdDoc (freshId s) (parseMediumArticle now y)]))
          (parseMediumArticle now x) herr
        have hstable2 : stepStore now
            (s ++ [createdDoc (freshId s) (parseMediumArticle now y)]) x =
            s ++ [createdDoc (freshId s) (parseMediumArticle now y)] := by
          rw [stepStore, processEntry_notFound hdmx hfx2, he2]
          exact markSyncFailed_of_none hfx2
        rw [stableEntry, hstepy, hstable2]
      · have hfx2 : findByMediumId
            (s ++ [createdDoc (freshId s) (parseMediumArticle now y)]) mx = some exX :=
          findByMediumId_append_found hfx
        by_cases hu : shouldUpdate now (parseMediumArticle now x) exX = true
        · have hsx : updateById s exX.id
              (applyArticleUpdate (parseMediumArticle now x) exX) = s := by
            have h0 := hst
            rw [stableEntry, stepStore, processEntry_found hdmx hfx, if_pos hu] at h0
            exact h0
          have hpt := eq_self_of_updateById hsx
          have hstable2 : stepStore now
              (s ++ [createdDoc (freshId s) (parseMediumArticle now y)]) x =
              s ++ [createdDoc (freshId s) (parseMediumArticle now y)] := by
            rw [stepStore, processEntry_found hdmx hfx2, if_pos hu]
            apply updateById_eq_self
            intro p hp hpi
            rcases List.mem_append.mp hp with hp1 | hp2
            · exact hpt p hp1 hpi
            · exfalso
              have hpd : p = createdDoc (freshId s) (parseMediumArticle now y) := by
                simpa using hp2
              have hlt := id_lt_freshId (findByMediumId_some hfx).1
              rw [hpd, hdocYid] at hpi
              omega
          rw [stableEntry, hstepy, hstable2]
        · have hstable2 : stepStore now
              (s ++ [createdDoc (freshId s) (parseMediumArticle now y)]) x =
              s ++ [createdDoc (freshId s) (parseMediumArticle now y)] := by
            rw [stepStore, processEntry_found hdmx hfx2, if_neg hu]
          rw [stableEntry, hstepy, hstable2]
  · by_cases huy : shouldUpdate now (parseMediumArticle now y) exY = true
    · obtain ⟨hexYmem, hexYmid⟩ := findByMediumId_some hfy
      have hkeepY : ∀ p ∈ s, p.id = exY.id →
          (applyArticleUpdate (parseMediumArticle now y) exY p).mediumId = p.mediumId := by
        intro p hp hpi
        have hpex : p = exY := eq_of_mem_of_id_eq hwf.1 hp hexYmem hpi
        rw [applyArticleUpdate_mediumId exY p ha_y, hpex, hexYmid]
      have hstepy : stepStore now s y =
          updateById s exY.id (applyArticleUpdate (parseMediumArticle now y) exY) := by
        rw [stepStore, processEntry_found hdmy hfy, if_pos huy]
      rcases hfx : findByMediumId s mx with _ | exX
      · have hfx2 : findByMediumId
            (updateById s exY.id (applyArticleUpdate (parseMediumArticle now y) exY)) mx =
            none := by
          rw [findByMediumId_updateById hkeepY, hfx]
          rfl
        have herr := stable_create_err hdmx hfx hst
        have hproj : (updateById s exY.id
              (applyArticleUpdate (parseMediumArticle now y) exY)).map
              (fun p => (p.mediumId, p.slug)) =
            s.map (fun p => (p.mediumId, p.slug)) := by
          apply map_proj_updateById
          intro p hp hpi
          have h1 := hkeepY p hp hpi
          have h2 := applyArticleUpdate_slug (parseMediumArticle now y) exY p
          simp only [h1, h2]
        obtain ⟨e2, he2⟩ := create_err_transfer s
          (updateById s exY.id (applyArticleUpdate (parseMediumArticle now y) exY))
          (freshId s)
          (freshId (updateById s exY.id (applyArticleUpdate (parseMediumArticle now y) exY)))
          (parseMediumArticle now x) hproj herr
        have hstable2 : stepStore now
            (updateById s exY.id (applyArticleUpdate (parseMediumArticle now y) exY)) x =
            updateById s exY.id (applyArticleUpdate (parseMediumArticle now y) exY) := by
          rw [stepStore, processEntry_notFound hdmx hfx2, he2]
          exact markSyncFailed_of_none hfx2
        rw [stableEntry, hstepy, hstable2]
      · have hexXmem := (findByMediumId_some hfx).1
        have hexXmid := (findByMediumId_some hfx).2
        have hexXne : exX ≠ exY := by
          intro hh
          apply hmxy
          rw [← hexXmid, hh, hexYmid]
        have hidne : exX.id ≠ exY.id := fun hh =>
          hexXne (eq_of_mem_of_id_eq hwf.1 hexXmem hexYmem hh)
        have hfx2 : findByMediumId
            (updateById s exY.id (applyArticleUpdate (parseMediumArticle now y) exY)) mx =
            some exX := by
          rw [findByMediumId_updateById hkeepY, hfx]
          simp [if_neg hidne]
        by_cases hu : shouldUpdate now (parseMediumArticle now x) exX = true
        · have hsx : updateById s exX.id
              (applyArticleUpdate (parseMediumArticle now x) exX) = s := by
            have h0 := hst
            rw [stableEntry, stepStore, processEntry_found hdmx hfx, if_pos hu] at h0
            exact h0
          have hpt := eq_self_of_updateById hsx
          have hstable2 : stepStore now
              (updateById s exY.id (applyArticleUpdate (parseMediumArticle now y) exY)) x =
              updateById s exY.id (applyArticleUpdate (parseMediumArticle now y) exY) := by
            rw [stepStore, processEntry_found hdmx hfx2, if_pos hu]
            apply updateById_eq_self
            intro p hp hpi
            unfold updateById at hp
            obtain ⟨q, hq, hgq⟩ := List.mem_map.mp hp
            by_cases hqY : q.id = exY.id
            · exfalso
              rw [if_pos hqY] at hgq
              have hpq : p.id = q.id := by
                rw [← hgq]
                rfl
              rw [hqY] at hpq
              exact hidne (hpi.symm.trans hpq)
            · rw [if_neg hqY] at hgq
              rw [← hgq]
              exact hpt q hq (by rw [hgq]; exact hpi)
          rw [stableEntry, hstepy, hstable2]
        · have hstable2 : stepStore now
              (updateById s exY.id (applyArticleUpdate (parseMediumArticle now y) exY)) x =
              updateById s exY.id (applyArticleUpdate (parseMediumArticle now y) exY) := by
            rw [stepStore, processEntry_found hdmx hfx2, if_neg hu]
          rw [stableEntry, hstepy, hstable2]
    · have hstepy : stepStore now s y = s := by
        rw [stepStore, processEntry_found hdmy hfy, if_neg huy]
      rw [stableEntry, hstepy]
      exact hst

theorem stable_through_list (now : Int) :
    ∀ (l : List FeedItem) (s : List Post) (x : FeedItem),
      storeWF s → stableEntry now s x → (∀ z ∈ l, disjointMid x z) →
      stableEntry now (postsAfter now s l) x := by
  intro l
  induction l with
  | nil => intro s x _ hst _; exact hst
  | cons z t ih =>
    intro s x hwf hst hdisj
    rw [postsAfter, List.foldl_cons]
    exact ih (stepStore now s z) x (storeWF_stepStore hwf)
      (stable_preserved hwf hst (hdisj z (by simp)))
      (fun w hw => hdisj w (by simp [hw]))

theorem all_stable_after (now : Int) :
    ∀ (items : List FeedItem) (s : List Post), storeWF s →
      items.Pairwise disjointMid →
      ∀ x ∈ items, stableEntry now (postsAfter now s items) x := by
  intro items
  induction items with
  | nil => intro s _ _ x hx; simp at hx
  | cons y r ih =>
    intro s hwf hpw x hx
    rw [postsAfter, List.foldl_cons]
    have hwf2 : storeWF (stepStore now s y) := storeWF_stepStore hwf
    rcases List.mem_cons.mp hx with rfl | hxr
    · exact stable_through_list now r (stepStore now s x) x hwf2
        (stable_after_step hwf) (List.pairwise_cons.mp hpw).1
    · exact ih (stepStore now s y) hwf2 (List.pairwise_cons.mp hpw).2 x hxr

theorem postsAfter_of_all_stable (now : Int) :
    ∀ (l : List FeedItem) (s : List Post),
      (∀ x ∈ l, stableEntry now s x) → postsAfter now s l = s := by
  intro l
  induction l with
  | nil => intro s _; rfl
  | cons x t ih =>
    intro s h
    rw [postsAfter, List.foldl_cons, h x (by simp)]
    exact ih s (fun z hz => h z (by simp [hz]))

/-! ### C2: idempotence of re-running the sync, corrected -/

/--
C2 (counterexample): running the sync a second time on the same unchanged feed is
not idempotent.  First scenario: a post whose stored publish date is newer than
the feed's is untouched by a run at hour 23, but a second run two hours later
trips the 24-hour staleness rule and overwrites its content (the title changes).
Second scenario: even two runs at the very same instant differ when two feed
entries derive the same identifier — the first entry fails validation on create
while the second is inserted, and on the second run the first entry reaches the
update path (which skips validation) and overwrites the stored content.
-/
theorem syncIdempotent_counterexample :
    ((syncArticles
        ⟨(syncArticles ⟨[stalePost], false⟩ (Except.ok [feedItemA]) 82800000).2.posts,
          false⟩ (Except.ok [feedItemA]) 90000000).2.posts ≠
      (syncArticles ⟨[stalePost], false⟩ (Except.ok [feedItemA]) 82800000).2.posts) ∧
    ((syncArticles ⟨[stalePost], false⟩ (Except.ok [feedItemA]) 82800000).2.posts.map
      Post.title = ["Old"]) ∧
    ((syncArticles
        ⟨(syncArticles ⟨[stalePost], false⟩ (Except.ok [feedItemA]) 82800000).2.posts,
          false⟩ (Except.ok [feedItemA]) 90000000).2.posts.map Post.title = ["Hello"]) ∧
    ((syncArticles
        ⟨(syncArticles ⟨[], false⟩ (Except.ok [feedItemXdup, feedItemYdup]) 7).2.posts,
          false⟩ (Except.ok [feedItemXdup, feedItemYdup]) 7).2.posts ≠
      (syncArticles ⟨[], false⟩ (Except.ok [feedItemXdup, feedItemYdup]) 7).2.posts) ∧
    ((syncArticles ⟨[], false⟩
        (Except.ok [feedItemXdup, feedItemYdup]) 7).2.posts.map Post.title = ["Ydup"]) ∧
    ((syncArticles
        ⟨(syncArticles ⟨[], false⟩ (Except.ok [feedItemXdup, feedItemYdup]) 7).2.posts,
          false⟩ (Except.ok [feedItemXdup, feedItemYdup]) 7).2.posts.map Post.title =
      ["Xdup"]) := by
  decide

/--
C2 (amended): re-running the sync on the same unchanged feed is idempotent when
the second run happens at the same instant as the first (so that no stored post's
24-hour staleness window expires between the runs) and the feed's entries derive
pairwise distinct usable identifiers, starting from a well-formed store: the
second run changes no post, adds none and removes none, so views, likes and
featured flags are trivially preserved.
-/
theorem syncIdempotentAmended (now : Int) (s : List Post) (items : List FeedItem)
    (hwf : storeWF s) (hdisj : items.Pairwise disjointMid) :
    (syncArticles ⟨(syncArticles ⟨s, false⟩ (Except.ok items) now).2.posts, false⟩
        (Except.ok items) now).2.posts =
      (syncArticles ⟨s, false⟩ (Except.ok items) now).2.posts := by
  rw [syncArticles_posts, syncArticles_posts]
  exact postsAfter_of_all_stable now items (postsAfter now s items)
    (fun x hx => all_stable_after now items s hwf hdisj x hx)

/-- Witness for the amended C2: two runs at the same instant over a two-entry
feed, starting from a one-post store. -/
theorem syncIdempotentAmended_witness :
    (syncArticles
        ⟨(syncArticles ⟨[draftPost], false⟩ (Except.ok [feedItemA, feedItemB]) 5).2.posts,
          false⟩ (Except.ok [feedItemA, feedItemB]) 5).2.posts =
      (syncArticles ⟨[draftPost], false⟩ (Except.ok [feedItemA, feedItemB]) 5).2.posts :=
  syncIdempotentAmended 5 [draftPost] [feedItemA, feedItemB] (by decide) (by decide)

/-! ### C6: reading time, corrected -/

theorem countWordRuns_cons (c : Char) (r : List Char) (b : Bool) :
    countWordRuns (c :: r) b =
      (if c.isWhitespace = true then countWordRuns r false
      else (if b = true then 0 else 1) + countWordRuns r true) := rfl

theorem countWsRuns_cons (c : Char) (r : List Char) (b : Bool) :
    countWsRuns (c :: r) b =
      (if c.isWhitespace = true then (if b = true then 0 else 1) + countWsRuns r true
      else countWsRuns r false) := rfl

theorem wordRuns_wsRuns : ∀ (l : List Char), endsInWs l = false →
    (countWordRuns l true = countWsRuns l false ∧
      (l ≠ [] → countWordRuns l false = countWsRuns l true + 1)) := by
  intro l
  induction l with
  | nil => intro _; exact ⟨rfl, fun h => absurd rfl h⟩
  | cons c r ih =>
    intro hend
    rcases r with _ | ⟨d, t⟩
    · have hc : c.isWhitespace = false := by
        simpa [endsInWs, List.getLast?] using hend
      constructor
      · simp [countWordRuns, countWsRuns, hc]
      · intro _
        simp [countWordRuns, countWsRuns, hc]
    · have hend2 : endsInWs (d :: t) = false := by
        have heq : endsInWs (c :: d :: t) = endsInWs (d :: t) := by
          simp [endsInWs]
        rwa [heq] at hend
      obtain ⟨ihA, ihC⟩ := ih hend2
      by_cases hc : c.isWhitespace = true
      · constructor
        · rw [countWordRuns_cons, countWsRuns_cons, if_pos hc, if_pos hc,
            ihC (by simp)]
          simp
          try omega
        · intro _
          rw [countWordRuns_cons, countWsRuns_cons, if_pos hc, if_pos hc,
            ihC (by simp)]
          simp
          try omega
      · constructor
        · rw [countWordRuns_cons, countWsRuns_cons, if_neg hc, if_neg hc, ihA]
          simp
          try omega
        · intro _
          rw [countWordRuns_cons, countWsRuns_cons, if_neg hc, if_neg hc, ihA]
          simp
          try omega

theorem jsSplitWsLen_eq_specWordCount (s : String) (hne : s.toList ≠ [])
    (hhead : ∀ c, s.toList.head? = some c → c.isWhitespace = false)
    (hlast : endsInWs s.toList = false) :
    jsSplitWsLen s = specWordCount s := by
  unfold jsSplitWsLen specWordCount
  rcases hl : s.toList with _ | ⟨c, r⟩
  · exact absurd hl hne
  have hc : c.isWhitespace = false := hhead c (by rw [hl]; rfl)
  have hcn : ¬(c.isWhitespace = true) := by simp [hc]
  rw [hl] at hlast
  rcases r with _ | ⟨d, t⟩
  · simp [countWordRuns, countWsRuns, hc]
  · have hend2 : endsInWs (d :: t) = false := by
      have heq : endsInWs (c :: d :: t) = endsInWs (d :: t) := by
        simp [endsInWs]
      rwa [heq] at hlast
    have hA := (wordRuns_wsRuns (d :: t) hend2).1
    rw [countWordRuns_cons, countWsRuns_cons, if_neg hcn, if_neg hcn, hA]
    simp
    try omega

/--
C6 (counterexample): the claim that readingTime always equals the ceiling of the
plain-text word count over 200 fails for an entry whose markup-stripped body is
empty: its word count is 0 (so the claimed reading time would be 0), but the code
computes `split(/\s+/).length`, which is 1 for the empty string, giving reading
time 1.
-/
theorem readingTimeCeil_counterexample :
    (parseMediumArticle 0 feedItemEmptyBody).readingTime = 1 ∧
    specWordCount (stripHtmlTags (jsStrD (jsOrStr feedItemEmptyBody.content
      feedItemEmptyBody.contentEncoded) "")) = 0 ∧
    jsCeilDiv (specWordCount (stripHtmlTags (jsStrD (jsOrStr feedItemEmptyBody.content
      feedItemEmptyBody.contentEncoded) ""))) 200 = 0 ∧
    (1 : Nat) ≠ 0 := by
  decide

/--
C6 (amended): readingTime equals the ceiling over 200 of the LENGTH OF THE
JavaScript whitespace split of the markup-stripped body (one more than the number
of whitespace runs), and that split length agrees with the plain-text word count
whenever the plain text is nonempty with no leading or trailing whitespace — in
particular a 400-word body still gets reading time 2.
-/
theorem readingTimeFormula (now : Int) (item : FeedItem) :
    (parseMediumArticle now item).readingTime =
      jsCeilDiv (jsSplitWsLen (stripHtmlTags
        (jsStrD (jsOrStr item.content item.contentEncoded) ""))) 200 ∧
    (∀ s : String, s.toList ≠ [] →
      (∀ c, s.toList.head? = some c → c.isWhitespace = false) →
      endsInWs s.toList = false →
      jsSplitWsLen s = specWordCount s) :=
  ⟨rfl, fun s h1 h2 h3 => jsSplitWsLen_eq_specWordCount s h1 h2 h3⟩

/-- Witness for the amended C6: a 400-word body yields reading time 2, and its
split length is the true word count. -/
theorem readingTimeFormula_witness :
    (parseMediumArticle 0 feedItem400).readingTime = 2 ∧
    jsSplitWsLen words400 = specWordCount words400 ∧
    specWordCount words400 = 400 := by
  have h := readingTimeFormula 0 feedItem400
  exact ⟨h.1.trans (by decide), h.2 words400 (by decide) (by decide) (by decide),
    by decide⟩

/-! ### C9: parse-time field budgets, corrected -/

theorem jsStrD_some (a d : String) : jsStrD (some a) d = if a = "" then d else a := rfl

theorem jsSubstring_length_le (s : String) (n : Nat) : (jsSubstring s n).length ≤ n := by
  have h : (jsSubstring s n).length = (s.toList.take n).length := rfl
  rw [h, List.length_take]
  exact Nat.min_le_left _ _

/--
C9 (counterexample): a contentSnippet is used as the description verbatim, with
no truncation — an entry with a 501-character snippet produces a description of
501 characters, violating the claimed 500-character budget.
-/
theorem parseBudgets_counterexample :
    ((parseMediumArticle 0 feedItemXdup).description).length = 501 ∧
    ¬(((parseMediumArticle 0 feedItemXdup).description).length ≤ 500) := by
  decide

/--
C9 (amended): the excerpt is at most 300 characters, the tag list at most 10
entries and the category list at most 5; the description is at most 500
characters whenever the entry has no nonempty trimmed contentSnippet (the
truncated-plain-text fallback), but when such a snippet is present the
description is the trimmed snippet verbatim, without truncation.
-/
theorem parseBudgets (now : Int) (item : FeedItem) :
    (parseMediumArticle now item).excerpt.length ≤ 300 ∧
    (parseMediumArticle now item).tags.length ≤ 10 ∧
    (parseMediumArticle now item).categories.length ≤ 5 ∧
    (jsStrD (item.contentSnippet.map jsTrim) "" = "" →
      (parseMediumArticle now item).description.length ≤ 500) ∧
    (∀ t, item.contentSnippet = some t → jsTrim t ≠ "" →
      (parseMediumArticle now item).description = jsTrim t) := by
  refine ⟨?_, ?_, ?_, ?_, ?_⟩
  · exact jsSubstring_length_le _ 300
  · have h : (parseMediumArticle now item).tags =
        extractTags (item.categories.getD []) := rfl
    rw [h, extractTags, List.length_take]
    exact Nat.min_le_left _ _
  · have h : (parseMediumArticle now item).categories =
        extractCategories (item.categories.getD []) := rfl
    rw [h, extractCategories, List.length_take]
    exact Nat.min_le_left _ _
  · intro hsnip
    have h : (parseMediumArticle now item).description =
        jsStrD (item.contentSnippet.map jsTrim)
          (jsSubstring (stripHtmlTags
            (jsStrD (jsOrStr item.content item.contentEncoded) "")) 500) := rfl
    rw [h]
    rcases hs : item.contentSnippet with _ | t
    · exact jsSubstring_length_le _ 500
    · rw [hs] at hsnip
      simp only [Option.map] at hsnip ⊢
      rw [jsStrD_some] at hsnip ⊢
      split_ifs at hsnip ⊢ with ht
      · exact jsSubstring_length_le _ 500
      · exact absurd hsnip ht
  · intro t ht hnt
    have h : (parseMediumArticle now item).description =
        jsStrD (item.contentSnippet.map jsTrim)
          (jsSubstring (stripHtmlTags
            (jsStrD (jsOrStr item.content item.contentEncoded) "")) 500) := rfl
    rw [h, ht]
    simp only [Option.map]
    rw [jsStrD_some, if_neg hnt]

/-- Witness for the amended C9 at concrete entries with and without a snippet. -/
theorem parseBudgets_witness :
    (parseMediumArticle 0 feedItemA).excerpt.length ≤ 300 ∧
    (parseMediumArticle 0 feedItemA).tags.length ≤ 10 ∧
    (parseMediumArticle 0 feedItemA).categories.length ≤ 5 ∧
    (parseMediumArticle 0 feedItemNoSnippet).description.length ≤ 500 ∧
    (parseMediumArticle 0 feedItemA).description = jsTrim "snippet" := by
  have h1 := parseBudgets 0 feedItemA
  have h2 := parseBudgets 0 feedItemNoSnippet
  exact ⟨h1.1, h1.2.1, h1.2.2.1, h2.2.2.2.1 (by decide),
    h1.2.2.2.2 "snippet" rfl (by decide)⟩

end Portfolio
